import Mathlib

/-!
Shallow embedding of the Wallet-Service repository (TypeScript/Prisma/Postgres).

Conventions of the embedding:

* All monetary values (`balance DECIMAL(18,6)` columns and `amount` fields) are
  represented exactly, in integer micro-units: the integer `b : ℤ` stands for the
  decimal value `b / 10^6`.  This is the exact value domain of the `DECIMAL(18,6)`
  database columns.
* JavaScript `number` values are IEEE-754 binary64.  Where the source converts a
  stored decimal to a JS number (`Number(wallet.balance)`) and compares it with an
  amount, the embedding performs the binary64 round-to-nearest-even conversion
  explicitly (`dbl` below) and compares the two rounded values (`numberLt`).
  An `amount` parameter of the embedded service is identified with the
  `DECIMAL(18,6)` value that the database receives for it; its JS-number value is
  recovered by the same binary64 rounding (exact whenever the boundary value has
  at most 15 significant digits, which covers every value whose rounding is ever
  distinguishable in this model).
* The database is a record of lists (one per table); each operation is a function
  from the database state (plus arguments) to the new state and a result.
  A thrown JS `Error` becomes an `Except.error`; a Prisma `$transaction` that
  throws rolls back to the state at the start of the transaction, which the
  embedding mirrors by returning the pre-transaction state alongside the error.
* Prisma-generated UUIDs are modelled by a `nextId` counter in the state and the
  generator `genId`; freshness of generated ids with respect to pre-existing rows
  is the well-formedness predicate `WF`.
-/

/-- `2 ^ n` as an integer, by structural recursion (kernel-reducible). -/
def twoPow : ℕ → ℤ
  | 0 => 1
  | n + 1 => 2 * twoPow n

/-- Does `2 ^ e ≤ b / 10^6` hold, for a balance `b` in micro-units? -/
def pow2Le (e : ℤ) (b : ℤ) : Bool :=
  if 0 ≤ e then decide (1000000 * twoPow e.toNat ≤ b)
  else decide (1000000 ≤ b * twoPow (-e).toNat)

/-- Scan e = fuel-22, …, -21 from above: the largest exponent `e ∈ [-21, 60]`
with `2 ^ e ≤ b / 10^6` (and `-22` if there is none).  `DECIMAL(18,6)` values are
below `10^12 < 2^40` and positive ones are at least `10^-6 > 2^-20`, so the scan
range covers every representable nonzero magnitude. -/
def floorLog2Aux (b : ℤ) : ℕ → ℤ
  | 0 => -22
  | n + 1 => if pow2Le ((n : ℤ) - 21) b then (n : ℤ) - 21 else floorLog2Aux b n

/-- Floor of the base-2 logarithm of `b / 10^6` (for `b` in the `DECIMAL(18,6)` range). -/
def floorLog2 (b : ℤ) : ℤ := floorLog2Aux b 82

/-- Round `n / d` (with `d > 0`) to the nearest integer, ties to even —
the IEEE-754 default rounding used by JS number conversion. -/
def divRoundHalfEven (n d : ℤ) : ℤ :=
  let q := Int.fdiv n d
  let r := n - q * d
  if 2 * r < d then q
  else if d < 2 * r then q + 1
  else if q % 2 = 0 then q else q + 1

/-- Binary64 value of the positive decimal `b / 10^6` as a dyadic pair `(M, s)`
standing for `M / 2^s`: the significand is `b / 10^6` scaled into `[2^52, 2^53)`
and rounded to the nearest integer, ties to even.  Faithful to IEEE-754 binary64
on the whole `DECIMAL(18,6)` range (no overflow/subnormal there). -/
def dblPos (b : ℤ) : ℤ × ℕ :=
  let e := floorLog2 b
  let s : ℕ := (52 - e).toNat
  (divRoundHalfEven (b * twoPow s) 1000000, s)

/-- Binary64 value of the decimal `b / 10^6` (micro-units) as a dyadic `M / 2^s`.
This embeds the JS conversion `Number(decimal)` used by the service's balance
checks. -/
def dbl (b : ℤ) : ℤ × ℕ :=
  if b < 0 then
    let p := dblPos (-b)
    (-p.1, p.2)
  else dblPos b

/-- Comparison of two dyadic values `M₁ / 2^s₁ < M₂ / 2^s₂`. -/
def dblLt (x y : ℤ × ℕ) : Bool := decide (x.1 * twoPow y.2 < y.1 * twoPow x.2)

/-- The JS comparison `Number(balance) < amount` of the service code, on exact
`DECIMAL(18,6)` micro-unit values `b` (balance) and `a` (amount): both sides are
binary64 numbers, so both decimals are rounded to binary64 before comparing. -/
def numberLt (b a : ℤ) : Bool := dblLt (dbl b) (dbl a)

/-- Lexicographic comparison of character lists by code point — the total order
behind JS `Array.prototype.sort()` on id strings and the database's `ORDER BY id
ASC` (identical on the ASCII ids used here). -/
def charListLe : List Char → List Char → Bool
  | [], _ => true
  | _ :: _, [] => false
  | c :: cs, d :: ds =>
    if c.val.toNat < d.val.toNat then true
    else if d.val.toNat < c.val.toNat then false
    else charListLe cs ds

/-- Lexicographic string order (see `charListLe`). -/
def strLe (s t : String) : Bool := charListLe s.data t.data

/-- JS `[ ... ].sort()` on a list of id strings. -/
def sortStrings (l : List String) : List String :=
  l.insertionSort (fun s t => strLe s t = true)

instance : DecidableRel (fun (s t : String) => strLe s t = true) :=
  fun _ _ => inferInstanceAs (Decidable (_ = true))

/-- `asset_types` table row (`prisma` model `AssetType`). -/
structure AssetType where
  id : String
  name : String
deriving DecidableEq

/-- `users` table row (`prisma` model `User`). -/
structure User where
  id : String
  email : String
  name : String
deriving DecidableEq

/-- `wallets` table row: `balance DECIMAL(18,6)` held exactly in micro-units,
unique key `(userId, assetTypeId)`. -/
structure Wallet where
  id : String
  userId : String
  assetTypeId : String
  balance : ℤ
deriving DecidableEq

/-- `TransactionType` enum of the schema. -/
inductive TransactionType where
  | DEPOSIT
  | WITHDRAWAL
  | TRANSFER
deriving DecidableEq

/-- `TransactionStatus` enum of the schema. -/
inductive TransactionStatus where
  | PENDING
  | COMPLETED
  | FAILED
  | REVERSED
deriving DecidableEq

/-- `transactions` table row.  The `metadata` JSONB column is used by the code
only to carry `{ idempotencyKey }`, so it is modelled as the `idempotencyKey`
option directly. -/
structure Transaction where
  id : String
  senderWalletId : String
  receiverWalletId : String
  amount : ℤ
  type : TransactionType
  status : TransactionStatus
  description : Option String
  idempotencyKey : Option String
deriving DecidableEq

/-- The database: one list per table, plus the id-generation counter standing
for Prisma's UUID generator. -/
structure DbState where
  assetTypes : List AssetType
  users : List User
  wallets : List Wallet
  transactions : List Transaction
  nextId : ℕ
deriving DecidableEq

/-- Generated row id number `n` (stands for the `n`-th fresh UUID; the unary
payload makes distinctness of distinct generator states immediate). -/
def genId (n : ℕ) : String := ("id-") ++ String.mk (List.replicate n ('x'))

/-- Errors thrown by the embedded code (`throw new Error(...)` sites and Prisma's
record-not-found rejection), with their exact message strings in
`TxError.message`.  The spec taxonomy maps: `duplicateIdempotencyKey` =
`DuplicateRequest`, `assetTypeNotFound` = `AssetNotFound`, `treasuryNotFound` =
`TreasuryNotConfigured`, `walletNotFound` = `WalletNotFound`,
`insufficientBalance`/`insufficientTreasuryBalance` = `InsufficientBalance`. -/
inductive TxError where
  | duplicateIdempotencyKey
  | assetTypeNotFound (name : String)
  | treasuryNotFound
  | walletNotFound
  | insufficientBalance
  | insufficientTreasuryBalance
  | recordNotFound
deriving DecidableEq

deriving instance DecidableEq for Except

/-- The JS `error.message` string surfaced to the request layer. -/
def TxError.message : TxError → String
  | .duplicateIdempotencyKey => ("Idempotency Key Already Exists")
  | .assetTypeNotFound name => ("Asset type ") ++ name ++ (" not found")
  | .treasuryNotFound => ("Treasury account not found")
  | .walletNotFound => ("Wallet not found")
  | .insufficientBalance => ("Insufficient balance")
  | .insufficientTreasuryBalance => ("Insufficient treasury balance")
  | .recordNotFound => ("Record not found")

/-- The `ORDER BY id ASC` relation on wallet rows. -/
def walletIdLe (a b : Wallet) : Prop := strLe a.id b.id = true

instance : DecidableRel walletIdLe :=
  fun _ _ => inferInstanceAs (Decidable (_ = true))

/-- `AssetTypeDbAccess.findByName`: `findUnique({ where: { name } })`. -/
def AssetTypeDb.findByName (st : DbState) (name : String) : Option AssetType :=
  st.assetTypes.find? (fun a => a.name == name)

/-- `UserDbAccess.findTreasuryUser`: `findUnique({ where: { email: "treasury@wallet.internal" } })`. -/
def UserDb.findTreasuryUser (st : DbState) : Option User :=
  st.users.find? (fun u => u.email == ("treasury@wallet.internal"))

/-- `WalletDbAccess.getOrCreate`: `upsert` on the unique key `(userId, assetTypeId)`;
creates the wallet with balance 0 when absent. -/
def WalletDb.getOrCreate (st : DbState) (userId assetTypeId : String) : Wallet × DbState :=
  match st.wallets.find? (fun w => w.userId == userId && w.assetTypeId == assetTypeId) with
  | some w => (w, st)
  | none =>
    let w : Wallet := { id := genId st.nextId, userId := userId, assetTypeId := assetTypeId, balance := 0 }
    (w, { st with wallets := st.wallets ++ [w], nextId := st.nextId + 1 })

/-- `WalletService.getOrCreateWallet` delegates to `WalletDbAccess.getOrCreate`. -/
def WalletService.getOrCreateWallet (st : DbState) (userId assetTypeId : String) : Wallet × DbState :=
  WalletDb.getOrCreate st userId assetTypeId

/-- `WalletDbAccess.findManyByIds`: sorts the ids, then
`findMany({ where: { id: { in: sortedIds } }, orderBy: { id: "asc" } })` —
the result rows come back sorted ascending by id. -/
def WalletDb.findManyByIds (st : DbState) (walletIds : List String) : List Wallet :=
  let sortedIds := sortStrings walletIds
  if sortedIds.length = 0 then []
  else (st.wallets.filter (fun w => sortedIds.contains w.id)).insertionSort walletIdLe

/-- `WalletDbAccess.incrementBalance`: `update({ where: { id }, data: { balance: { increment } } })`;
Prisma rejects the update when no row matches. -/
def WalletDb.incrementBalance (st : DbState) (walletId : String) (amount : ℤ) :
    Except TxError (Wallet × DbState) :=
  match st.wallets.find? (fun w => w.id == walletId) with
  | none => .error TxError.recordNotFound
  | some w =>
    .ok ({ w with balance := w.balance + amount },
      { st with wallets := (st.wallets.map
        (fun x => if x.id == walletId then { x with balance := x.balance + amount } else x)) })

/-- `WalletDbAccess.decrementBalance`: `update({ ..., balance: { decrement } })`.
No balance check of any kind (the doc comment in the source says to use
`decrementBalanceWithCheck` for validation). -/
def WalletDb.decrementBalance (st : DbState) (walletId : String) (amount : ℤ) :
    Except TxError (Wallet × DbState) :=
  match st.wallets.find? (fun w => w.id == walletId) with
  | none => .error TxError.recordNotFound
  | some w =>
    .ok ({ w with balance := w.balance - amount },
      { st with wallets := (st.wallets.map
        (fun x => if x.id == walletId then { x with balance := x.balance - amount } else x)) })

/-- `WalletDbAccess.decrementBalanceWithCheck`: reads the wallet, compares
`Number(wallet.balance) < amount` (a binary64 comparison), throws
`"Insufficient balance"` on failure, otherwise applies the decrement. -/
def WalletDb.decrementBalanceWithCheck (st : DbState) (walletId : String) (amount : ℤ) :
    Except TxError (Wallet × DbState) :=
  match st.wallets.find? (fun w => w.id == walletId) with
  | none => .error TxError.walletNotFound
  | some wallet =>
    if numberLt wallet.balance amount then .error TxError.insufficientBalance
    else
      .ok ({ wallet with balance := wallet.balance - amount },
        { st with wallets := (st.wallets.map
          (fun x => if x.id == walletId then { x with balance := x.balance - amount } else x)) })

/-- `TransactionDbAccess.findByIdempotencyKey`:
`findFirst({ where: { metadata: { path: ["idempotencyKey"], equals: key } } })`. -/
def TransactionDb.findByIdempotencyKey (st : DbState) (idempotencyKey : String) : Option Transaction :=
  st.transactions.find? (fun t => t.idempotencyKey == some idempotencyKey)

/-- `TransactionDbAccess.create`: inserts a new row in `PENDING` status. -/
def TransactionDb.create (st : DbState) (senderWalletId receiverWalletId : String)
    (amount : ℤ) (type : TransactionType) (description : Option String)
    (idempotencyKey : Option String) : Transaction × DbState :=
  let txn : Transaction :=
    { id := genId st.nextId, senderWalletId := senderWalletId,
      receiverWalletId := receiverWalletId, amount := amount, type := type,
      status := TransactionStatus.PENDING, description := description,
      idempotencyKey := idempotencyKey }
  (txn, { st with transactions := st.transactions ++ [txn], nextId := st.nextId + 1 })

/-- `TransactionDbAccess.updateStatus`: `update({ where: { id }, data: { status } })`;
Prisma rejects the update when no row matches. -/
def TransactionDb.updateStatus (st : DbState) (transactionId : String)
    (status : TransactionStatus) : Except TxError (Transaction × DbState) :=
  match st.transactions.find? (fun t => t.id == transactionId) with
  | none => .error TxError.recordNotFound
  | some t =>
    .ok ({ t with status := status },
      { st with transactions := (st.transactions.map
        (fun x => if x.id == transactionId then { x with status := status } else x)) })

/-- The idempotency pre-check shared by the three operations:
`if (idempotencyKey) { const existing = await findByIdempotencyKey(key); ... }`. -/
def idempotencyLookup (st : DbState) (idempotencyKey : Option String) : Option Transaction :=
  match idempotencyKey with
  | some key => TransactionDb.findByIdempotencyKey st key
  | none => none

/-- Body of the `prisma.$transaction(async (tx) => ...)` callback, identical in
`topUp`, `issueBonus` and `spend` up to its parameters: re-fetch both wallets in
sorted id order (`findManyByIds`), check `Number(senderLocked.balance) < amount`
(throwing `insuffErr` — the treasury message for topUp/issueBonus, the user
message for spend; in all three operations the checked wallet is the sender),
create the ledger row `PENDING`, decrement the sender, increment the receiver,
and finalize the row to `COMPLETED`. -/
def TransactionService.transferAtomic (st : DbState) (senderW receiverW : Wallet)
    (amount : ℤ) (type : TransactionType) (description : Option String)
    (idempotencyKey : Option String) (insuffErr : TxError) :
    Except TxError (Transaction × DbState) :=
  match (WalletDb.findManyByIds st (sortStrings [senderW.id, receiverW.id])).find?
          (fun w => w.id == senderW.id),
        (WalletDb.findManyByIds st (sortStrings [senderW.id, receiverW.id])).find?
          (fun w => w.id == receiverW.id) with
  | some lockedSender, some _ =>
    if numberLt lockedSender.balance amount then .error insuffErr
    else
      match TransactionDb.create st senderW.id receiverW.id amount type
          description idempotencyKey with
      | (txn0, st1) =>
        match WalletDb.decrementBalance st1 senderW.id amount with
        | .error e => .error e
        | .ok (_, st2) =>
          match WalletDb.incrementBalance st2 receiverW.id amount with
          | .error e => .error e
          | .ok (_, st3) =>
            TransactionDb.updateStatus st3 txn0.id TransactionStatus.COMPLETED
  | _, _ => .error TxError.walletNotFound

/-- `TransactionService.topUp`: idempotency hit is REJECTED
(`throw new Error("Idempotency Key Already Exists")`); then asset-type and
treasury resolution, wallet get-or-create OUTSIDE the storage transaction
(treasury wallet first, then user wallet), then the atomic unit with the
treasury as sender, the user as receiver and kind `DEPOSIT`.
Returns the resulting database state together with the JS result
(`$transaction` rolls back to the pre-transaction state on a throw inside it). -/
def TransactionService.topUp (st : DbState) (userId assetTypeName : String)
    (amount : ℤ) (idempotencyKey : Option String) : DbState × Except TxError Transaction :=
  match idempotencyLookup st idempotencyKey with
  | some _ => (st, .error TxError.duplicateIdempotencyKey)
  | none =>
    match AssetTypeDb.findByName st assetTypeName with
    | none => (st, .error (TxError.assetTypeNotFound assetTypeName))
    | some assetType =>
      match UserDb.findTreasuryUser st with
      | none => (st, .error TxError.treasuryNotFound)
      | some treasuryUser =>
        let r1 := WalletService.getOrCreateWallet st treasuryUser.id assetType.id
        let r2 := WalletService.getOrCreateWallet r1.2 userId assetType.id
        match TransactionService.transferAtomic r2.2 r1.1 r2.1 amount
            TransactionType.DEPOSIT
            (some (("Top-up: ") ++ toString amount ++ (" ") ++ assetTypeName))
            idempotencyKey TxError.insufficientTreasuryBalance with
        | .ok (txn, st3) => (st3, .ok txn)
        | .error e => (r2.2, .error e)

/-- `TransactionService.issueBonus`: identical to `topUp` except that an
idempotency hit RETURNS the existing transaction unchanged, and the description
defaults via JS `description || ...` (empty string is falsy). -/
def TransactionService.issueBonus (st : DbState) (userId assetTypeName : String)
    (amount : ℤ) (description : String) (idempotencyKey : Option String) :
    DbState × Except TxError Transaction :=
  match idempotencyLookup st idempotencyKey with
  | some existing => (st, .ok existing)
  | none =>
    match AssetTypeDb.findByName st assetTypeName with
    | none => (st, .error (TxError.assetTypeNotFound assetTypeName))
    | some assetType =>
      match UserDb.findTreasuryUser st with
      | none => (st, .error TxError.treasuryNotFound)
      | some treasuryUser =>
        let r1 := WalletService.getOrCreateWallet st treasuryUser.id assetType.id
        let r2 := WalletService.getOrCreateWallet r1.2 userId assetType.id
        match TransactionService.transferAtomic r2.2 r1.1 r2.1 amount
            TransactionType.DEPOSIT
            (some (if description == ("")
              then ("Bonus: ") ++ toString amount ++ (" ") ++ assetTypeName
              else description))
            idempotencyKey TxError.insufficientTreasuryBalance with
        | .ok (txn, st3) => (st3, .ok txn)
        | .error e => (r2.2, .error e)

/-- `TransactionService.spend`: idempotency hit RETURNS the existing transaction;
wallet get-or-create order is user first, then treasury; the atomic unit has the
USER as sender (the checked, debited wallet), the treasury as receiver, and kind
`WITHDRAWAL`.  (The source builds the id list as `[userWallet.id,
treasuryWallet.id].sort()`; after sorting this equals the list built by
`transferAtomic`.)  The source-level balance check is
`Number(lockedUserWallet.balance) < amount` → `throw new Error("Insufficient balance")`. -/
def TransactionService.spend (st : DbState) (userId assetTypeName : String)
    (amount : ℤ) (description : String) (idempotencyKey : Option String) :
    DbState × Except TxError Transaction :=
  match idempotencyLookup st idempotencyKey with
  | some existing => (st, .ok existing)
  | none =>
    match AssetTypeDb.findByName st assetTypeName with
    | none => (st, .error (TxError.assetTypeNotFound assetTypeName))
    | some assetType =>
      match UserDb.findTreasuryUser st with
      | none => (st, .error TxError.treasuryNotFound)
      | some treasuryUser =>
        let r1 := WalletService.getOrCreateWallet st userId assetType.id
        let r2 := WalletService.getOrCreateWallet r1.2 treasuryUser.id assetType.id
        match TransactionService.transferAtomic r2.2 r1.1 r2.1 amount
            TransactionType.WITHDRAWAL
            (some (if description == ("")
              then ("Purchase: ") ++ toString amount ++ (" ") ++ assetTypeName
              else description))
            idempotencyKey TxError.insufficientBalance with
        | .ok (txn, st3) => (st3, .ok txn)
        | .error e => (r2.2, .error e)

/-- HTTP outcome of a transaction route: 201 with the transaction, or 400 with
the error message. -/
inductive HttpResult where
  | created (txn : Transaction)
  | badRequest (error : String)
deriving DecidableEq

/-- `POST /api/transactions/top-up` handler: requires `userId` and `assetType`
(JS falsiness — the typed embedding renders an absent string as `""`), rejects
`amount <= 0` BEFORE calling the service, then maps a service error to a 400
response with the error message. -/
def Routes.topUp (st : DbState) (userId assetType : String) (amount : ℤ)
    (idempotencyKey : Option String) : DbState × HttpResult :=
  if userId == ("") || assetType == ("") then
    (st, .badRequest ("userId, assetType, and amount are required"))
  else if amount ≤ 0 then
    (st, .badRequest ("Amount must be greater than 0"))
  else
    match TransactionService.topUp st userId assetType amount idempotencyKey with
    | (st2, .ok txn) => (st2, .created txn)
    | (st2, .error e) => (st2, .badRequest e.message)

/-- `POST /api/transactions/bonus` handler (description is optional). -/
def Routes.bonus (st : DbState) (userId assetType : String) (amount : ℤ)
    (description : String) (idempotencyKey : Option String) : DbState × HttpResult :=
  if userId == ("") || assetType == ("") then
    (st, .badRequest ("userId, assetType, and amount are required"))
  else if amount ≤ 0 then
    (st, .badRequest ("Amount must be greater than 0"))
  else
    match TransactionService.issueBonus st userId assetType amount description idempotencyKey with
    | (st2, .ok txn) => (st2, .created txn)
    | (st2, .error e) => (st2, .badRequest e.message)

/-- `POST /api/transactions/spend` handler (description is required). -/
def Routes.spend (st : DbState) (userId assetType : String) (amount : ℤ)
    (description : String) (idempotencyKey : Option String) : DbState × HttpResult :=
  if userId == ("") || assetType == ("") || description == ("") then
    (st, .badRequest ("userId, assetType, amount, and description are required"))
  else if amount ≤ 0 then
    (st, .badRequest ("Amount must be greater than 0"))
  else
    match TransactionService.spend st userId assetType amount description idempotencyKey with
    | (st2, .ok txn) => (st2, .created txn)
    | (st2, .error e) => (st2, .badRequest e.message)

/-- Balance (in micro-units) of the wallet row with the given id; 0 when no such
row exists (a wallet not yet created holds nothing). -/
def walletBalance (st : DbState) (walletId : String) : ℤ :=
  ((st.wallets.find? (fun w => w.id == walletId)).map Wallet.balance).getD 0

/-- Well-formedness of a database state: row ids are pairwise distinct within
each table (they are primary keys), and no existing row has an id the generator
could still produce (Prisma UUIDs are globally fresh). -/
structure WF (st : DbState) : Prop where
  walletIdsNodup : (st.wallets.map Wallet.id).Nodup
  txnIdsNodup : (st.transactions.map Transaction.id).Nodup
  walletFresh : ∀ w ∈ st.wallets, ∀ n, st.nextId ≤ n → w.id ≠ genId n
  txnFresh : ∀ t ∈ st.transactions, ∀ n, st.nextId ≤ n → t.id ≠ genId n

/-! ## Proof support: arithmetic, generated ids, balances -/

theorem twoPow_eq_pow (n : ℕ) : twoPow n = (2 : ℤ) ^ n := by
  induction n with
  | zero => rfl
  | succ n ih => rw [twoPow, ih, pow_succ]; ring

theorem twoPow_pos (n : ℕ) : 0 < twoPow n := by
  rw [twoPow_eq_pow]; positivity

theorem genId_injective : Function.Injective genId := by
  intro m n h
  have hdata := congrArg String.data h
  simp only [genId, String.data_append] at hdata
  have hlen := congrArg List.length hdata
  simpa using hlen

theorem ne_genId_of_head {s : String} (h : s.data.head? ≠ some ('i')) (n : ℕ) : s ≠ genId n := by
  intro hs
  apply h
  rw [hs]
  simp [genId, String.data_append]

/-- Balance lookup on a raw wallet list (the list-level unfolding of `walletBalance`). -/
def listBalance (l : List Wallet) (walletId : String) : ℤ :=
  ((l.find? (fun w => w.id == walletId)).map Wallet.balance).getD 0

theorem walletBalance_eq_listBalance (st : DbState) (x : String) :
    walletBalance st x = listBalance st.wallets x := rfl

theorem find?_map_of_id_eq (l : List Wallet) (f : Wallet → Wallet)
    (hf : ∀ w, (f w).id = w.id) (x : String) :
    (l.map f).find? (fun w => w.id == x) = (l.find? (fun w => w.id == x)).map f := by
  rw [List.find?_map]
  have : ((fun w => w.id == x) ∘ f) = (fun (w : Wallet) => w.id == x) := by
    funext w
    simp [Function.comp, hf]
  rw [this]

theorem balanceUpd_id (wid : String) (e : Wallet → ℤ) (w : Wallet) :
    ((if w.id == wid then { w with balance := e w } else w) : Wallet).id = w.id := by
  split <;> rfl

theorem listBalance_update_ne (l : List Wallet) (wid : String) (e : Wallet → ℤ)
    {x : String} (hne : x ≠ wid) :
    listBalance (l.map (fun w => if w.id == wid then { w with balance := e w } else w)) x
      = listBalance l x := by
  unfold listBalance
  rw [find?_map_of_id_eq l _ (balanceUpd_id wid e) x]
  cases h : l.find? (fun w => w.id == x) with
  | none => rfl
  | some w =>
    have hw : w.id = x := by simpa using List.find?_some h
    have hne2 : w.id ≠ wid := by rw [hw]; exact hne
    simp [hne2]

theorem listBalance_update_eq (l : List Wallet) (wid : String) (e : Wallet → ℤ)
    {w : Wallet} (hfind : l.find? (fun w => w.id == wid) = some w) :
    listBalance (l.map (fun w => if w.id == wid then { w with balance := e w } else w)) wid
      = e w := by
  unfold listBalance
  rw [find?_map_of_id_eq l _ (balanceUpd_id wid e) wid]
  have hw : w.id = wid := by simpa using List.find?_some hfind
  simp [hfind, hw]

/-! ## Proof support: get-or-create -/

theorem getOrCreate_transactions (st : DbState) (u a : String) :
    (WalletDb.getOrCreate st u a).2.transactions = st.transactions := by
  unfold WalletDb.getOrCreate
  split <;> rfl

theorem getOrCreate_nextId_le (st : DbState) (u a : String) :
    st.nextId ≤ (WalletDb.getOrCreate st u a).2.nextId := by
  unfold WalletDb.getOrCreate
  split
  · exact le_refl _
  · exact Nat.le_succ _

theorem getOrCreate_wallets (st : DbState) (u a : String) :
    (WalletDb.getOrCreate st u a).2.wallets = st.wallets ∨
    ((WalletDb.getOrCreate st u a).2.wallets
        = st.wallets ++ [(WalletDb.getOrCreate st u a).1] ∧
      (WalletDb.getOrCreate st u a).1.id = genId st.nextId ∧
      (WalletDb.getOrCreate st u a).1.balance = 0 ∧
      (WalletDb.getOrCreate st u a).2.nextId = st.nextId + 1) := by
  unfold WalletDb.getOrCreate
  split
  · exact Or.inl rfl
  · exact Or.inr ⟨rfl, rfl, rfl, rfl⟩

theorem getOrCreate_mem (st : DbState) (u a : String) {w : Wallet} (hw : w ∈ st.wallets) :
    w ∈ (WalletDb.getOrCreate st u a).2.wallets := by
  rcases getOrCreate_wallets st u a with h | ⟨h, _, _, _⟩
  · rw [h]; exact hw
  · rw [h]; exact List.mem_append_left _ hw

theorem getOrCreate_balance (st : DbState) (u a : String) (x : String) :
    walletBalance (WalletDb.getOrCreate st u a).2 x = walletBalance st x := by
  rcases getOrCreate_wallets st u a with h | ⟨h, _, hbal, _⟩
  · rw [walletBalance_eq_listBalance, walletBalance_eq_listBalance, h]
  · rw [walletBalance_eq_listBalance, walletBalance_eq_listBalance, h]
    unfold listBalance
    rw [List.find?_append]
    cases hf : st.wallets.find? (fun w => w.id == x) with
    | some w => simp [Option.or]
    | none =>
      simp only [Option.none_or]
      cases hx : ((WalletDb.getOrCreate st u a).1.id == x) <;>
        simp [List.find?, hx, hbal]

theorem getOrCreate_cases (st : DbState) (u a : String) :
    (WalletDb.getOrCreate st u a).2 = st ∨
    ((WalletDb.getOrCreate st u a).2
        = { st with wallets := st.wallets ++ [(WalletDb.getOrCreate st u a).1],
                    nextId := st.nextId + 1 } ∧
      (WalletDb.getOrCreate st u a).1.id = genId st.nextId ∧
      (WalletDb.getOrCreate st u a).1.balance = 0) := by
  unfold WalletDb.getOrCreate
  split
  · exact Or.inl rfl
  · exact Or.inr ⟨rfl, rfl, rfl⟩

theorem getOrCreate_WF {st : DbState} (u a : String) (hWF : WF st) :
    WF (WalletDb.getOrCreate st u a).2 := by
  have hfreshNow : genId st.nextId ∉ st.wallets.map Wallet.id := by
    simp only [List.mem_map]
    rintro ⟨w, hw, hid⟩
    exact hWF.walletFresh w hw st.nextId (le_refl _) hid
  rcases getOrCreate_cases st u a with h | ⟨h, hid, _⟩
  · rw [h]; exact hWF
  · rw [h]
    refine ⟨?_, hWF.txnIdsNodup, ?_, ?_⟩
    · show ((st.wallets ++ [(WalletDb.getOrCreate st u a).1]).map Wallet.id).Nodup
      rw [List.map_append]
      simp only [List.map_cons, List.map_nil]
      have hperm := List.perm_append_singleton
        ((WalletDb.getOrCreate st u a).1.id) (st.wallets.map Wallet.id)
      refine (List.Perm.nodup_iff hperm).2 ?_
      rw [List.nodup_cons, hid]
      exact ⟨hfreshNow, hWF.walletIdsNodup⟩
    · intro w hw n hn
      simp only at hn
      rcases List.mem_append.1 hw with hmem | hmem
      · exact hWF.walletFresh w hmem n (by omega)
      · have hweq : w = (WalletDb.getOrCreate st u a).1 := by simpa using hmem
        rw [hweq, hid]
        intro hcontra
        have := genId_injective hcontra
        omega
    · intro t ht n hn
      simp only at ht hn
      exact hWF.txnFresh t ht n (by omega)

/-! ## Proof support: ordered lock-fetch -/

theorem findManyByIds_find? (ids : List String) {st : DbState} {x : String} {w : Wallet}
    (hnodup : (st.wallets.map Wallet.id).Nodup)
    (hw : w ∈ st.wallets) (hid : w.id = x) (hx : x ∈ ids) :
    (WalletDb.findManyByIds st ids).find? (fun v => v.id == x) = some w := by
  unfold WalletDb.findManyByIds
  have hmem_sorted : x ∈ sortStrings ids :=
    ((List.perm_insertionSort _ ids).mem_iff).2 hx
  have hlen : ¬ (sortStrings ids).length = 0 := by
    intro h0
    rw [List.length_eq_zero] at h0
    rw [h0] at hmem_sorted
    simp at hmem_sorted
  rw [if_neg hlen]
  have hwL : w ∈ (st.wallets.filter
      (fun v => (sortStrings ids).contains v.id)).insertionSort walletIdLe := by
    rw [(List.perm_insertionSort _ _).mem_iff, List.mem_filter]
    refine ⟨hw, ?_⟩
    rw [hid]
    exact List.elem_iff.2 hmem_sorted
  cases hfind : ((st.wallets.filter
      (fun v => (sortStrings ids).contains v.id)).insertionSort walletIdLe).find?
        (fun v => v.id == x) with
  | none =>
    exfalso
    rw [List.find?_eq_none] at hfind
    exact hfind w hwL (by simp [hid])
  | some y =>
    have hyid : y.id = x := by simpa using List.find?_some hfind
    have hyL := List.mem_of_find?_eq_some hfind
    have hy_mem : y ∈ st.wallets := by
      rw [(List.perm_insertionSort _ _).mem_iff, List.mem_filter] at hyL
      exact hyL.1
    have : y = w := List.inj_on_of_nodup_map hnodup hy_mem hw (by rw [hyid, hid])
    rw [this]

/-! ## Proof support: single-row database writes -/

theorem decrementBalance_ok {st : DbState} {wid : String} {amount : ℤ}
    {w' : Wallet} {st' : DbState}
    (h : WalletDb.decrementBalance st wid amount = .ok (w', st')) :
    st' = { st with wallets := (st.wallets.map
      (fun v => if v.id == wid then { v with balance := v.balance - amount } else v)) } := by
  unfold WalletDb.decrementBalance at h
  split at h
  · exact absurd h (by simp)
  · simp only [Except.ok.injEq, Prod.mk.injEq] at h
    exact h.2.symm

theorem decrementBalance_ok_find {st : DbState} {wid : String} {amount : ℤ}
    {p : Wallet × DbState}
    (h : WalletDb.decrementBalance st wid amount = .ok p) :
    ∃ w, st.wallets.find? (fun v => v.id == wid) = some w := by
  unfold WalletDb.decrementBalance at h
  split at h
  · exact absurd h (by simp)
  case _ w hw => exact ⟨w, hw⟩

theorem incrementBalance_ok {st : DbState} {wid : String} {amount : ℤ}
    {w' : Wallet} {st' : DbState}
    (h : WalletDb.incrementBalance st wid amount = .ok (w', st')) :
    st' = { st with wallets := (st.wallets.map
      (fun v => if v.id == wid then { v with balance := v.balance + amount } else v)) } := by
  unfold WalletDb.incrementBalance at h
  split at h
  · exact absurd h (by simp)
  · simp only [Except.ok.injEq, Prod.mk.injEq] at h
    exact h.2.symm

theorem incrementBalance_ok_find {st : DbState} {wid : String} {amount : ℤ}
    {p : Wallet × DbState}
    (h : WalletDb.incrementBalance st wid amount = .ok p) :
    ∃ w, st.wallets.find? (fun v => v.id == wid) = some w := by
  unfold WalletDb.incrementBalance at h
  split at h
  · exact absurd h (by simp)
  case _ w hw => exact ⟨w, hw⟩

theorem updateStatus_append_last (t0 : Transaction) {st : DbState} {pre : List Transaction}
    (hT : st.transactions = pre ++ [t0]) (hfresh : ∀ t ∈ pre, t.id ≠ t0.id)
    (status : TransactionStatus) :
    TransactionDb.updateStatus st t0.id status
      = .ok ({ t0 with status := status },
          { st with transactions := pre ++ [{ t0 with status := status }] }) := by
  unfold TransactionDb.updateStatus
  rw [hT, List.find?_append]
  have hpre : pre.find? (fun t => t.id == t0.id) = none := by
    rw [List.find?_eq_none]
    intro t ht
    simpa using hfresh t ht
  rw [hpre]
  have hone : List.find? (fun t => t.id == t0.id) [t0] = some t0 := by
    simp [List.find?]
  simp only [Option.none_or, hone]
  have hmap : (pre ++ [t0]).map
      (fun x => if x.id == t0.id then { x with status := status } else x)
      = pre ++ [{ t0 with status := status }] := by
    rw [List.map_append]
    have h1 : pre.map (fun x => if x.id == t0.id then { x with status := status } else x)
        = pre := by
      rw [List.map_congr_left (g := id), List.map_id]
      intro t ht
      have : (t.id == t0.id) = false := by simpa using hfresh t ht
      simp [this]
    have h2 : [t0].map (fun x => if x.id == t0.id then { x with status := status } else x)
        = [{ t0 with status := status }] := by simp
    rw [h1, h2]
  rw [hmap]

/-! ## Proof support: the atomic transfer unit -/

theorem transferAtomic_ok {st : DbState} {senderW receiverW : Wallet} {amount : ℤ}
    {type : TransactionType} {d k : Option String} {ie : TxError}
    {txn : Transaction} {st' : DbState}
    (hfresh : ∀ t ∈ st.transactions, t.id ≠ genId st.nextId)
    (h : TransactionService.transferAtomic st senderW receiverW amount type d k ie
      = .ok (txn, st')) :
    txn = { id := genId st.nextId, senderWalletId := senderW.id,
            receiverWalletId := receiverW.id, amount := amount, type := type,
            status := TransactionStatus.COMPLETED, description := d,
            idempotencyKey := k } ∧
    st'.wallets = (st.wallets.map
        (fun v => if v.id == senderW.id then { v with balance := v.balance - amount } else v)).map
        (fun v => if v.id == receiverW.id then { v with balance := v.balance + amount } else v) ∧
    st'.transactions = st.transactions ++ [txn] ∧
    st'.nextId = st.nextId + 1 ∧
    st'.assetTypes = st.assetTypes ∧
    st'.users = st.users := by
  unfold TransactionService.transferAtomic at h
  split at h
  case _ lockedSender other =>
    split at h
    · exact absurd h (by simp)
    · dsimp only [TransactionDb.create] at h
      split at h
      · exact absurd h (by simp)
      case _ w2 st2 hdec =>
        split at h
        · exact absurd h (by simp)
        case _ w3 st3 hinc =>
          have hst2 := decrementBalance_ok hdec
          subst hst2
          have hst3 := incrementBalance_ok hinc
          subst hst3
          rw [updateStatus_append_last
            { id := genId st.nextId, senderWalletId := senderW.id,
              receiverWalletId := receiverW.id, amount := amount, type := type,
              status := TransactionStatus.PENDING, description := d,
              idempotencyKey := k } rfl hfresh TransactionStatus.COMPLETED] at h
          simp only [Except.ok.injEq, Prod.mk.injEq] at h
          obtain ⟨htxn, hst⟩ := h
          subst htxn
          subst hst
          exact ⟨rfl, rfl, rfl, rfl, rfl, rfl⟩
  case _ => exact absurd h (by simp)

theorem transferAtomic_ok_presence {st : DbState} {senderW receiverW : Wallet}
    {amount : ℤ} {type : TransactionType} {d k : Option String} {ie : TxError}
    {txn : Transaction} {st' : DbState}
    (h : TransactionService.transferAtomic st senderW receiverW amount type d k ie
      = .ok (txn, st')) :
    (∃ ws, st.wallets.find? (fun v => v.id == senderW.id) = some ws) ∧
    (∃ wr, st.wallets.find? (fun v => v.id == receiverW.id) = some wr) := by
  unfold TransactionService.transferAtomic at h
  split at h
  case _ =>
    split at h
    · exact absurd h (by simp)
    · dsimp only [TransactionDb.create] at h
      split at h
      · exact absurd h (by simp)
      case _ w2 st2 hdec =>
        split at h
        · exact absurd h (by simp)
        case _ w3 st3 hinc =>
          have hp1 := decrementBalance_ok_find hdec
          refine ⟨hp1, ?_⟩
          have hst2 := decrementBalance_ok hdec
          subst hst2
          obtain ⟨w, hw⟩ := incrementBalance_ok_find hinc
          rw [find?_map_of_id_eq _ _ (balanceUpd_id _ _)] at hw
          obtain ⟨v, hv, _⟩ := Option.map_eq_some'.1 hw
          exact ⟨v, hv⟩
  case _ => exact absurd h (by simp)

theorem transferAtomic_effects {st : DbState} {senderW receiverW : Wallet}
    {amount : ℤ} {type : TransactionType} {d k : Option String} {ie : TxError}
    {txn : Transaction} {st' : DbState}
    (hfresh : ∀ t ∈ st.transactions, t.id ≠ genId st.nextId)
    (h : TransactionService.transferAtomic st senderW receiverW amount type d k ie
      = .ok (txn, st')) :
    txn.status = TransactionStatus.COMPLETED ∧
    txn.amount = amount ∧
    txn.type = type ∧
    txn.idempotencyKey = k ∧
    txn.senderWalletId = senderW.id ∧
    txn.receiverWalletId = receiverW.id ∧
    st'.transactions = st.transactions ++ [txn] ∧
    (senderW.id ≠ receiverW.id →
      walletBalance st' senderW.id = walletBalance st senderW.id - amount ∧
      walletBalance st' receiverW.id = walletBalance st receiverW.id + amount) := by
  obtain ⟨htxn, hw, htr, hnext, _, _⟩ := transferAtomic_ok hfresh h
  obtain ⟨⟨ws, hws⟩, ⟨wr, hwr⟩⟩ := transferAtomic_ok_presence h
  subst htxn
  refine ⟨rfl, rfl, rfl, rfl, rfl, rfl, htr, ?_⟩
  intro hne
  have hwsid : ws.id = senderW.id := by simpa using List.find?_some hws
  have hwrid : wr.id = receiverW.id := by simpa using List.find?_some hwr
  constructor
  · rw [walletBalance_eq_listBalance, walletBalance_eq_listBalance, hw]
    rw [listBalance_update_ne _ _ _ hne]
    rw [listBalance_update_eq _ _ _ hws]
    unfold listBalance
    rw [hws]
    simp
  · rw [walletBalance_eq_listBalance, walletBalance_eq_listBalance, hw]
    have hwr_ne : (wr.id == senderW.id) = false := by
      rw [hwrid]
      simp only [beq_eq_false_iff_ne, ne_eq]
      exact fun hh => hne hh.symm
    have hfmap : ((st.wallets.map
        (fun v => if v.id == senderW.id then { v with balance := v.balance - amount } else v)).find?
          (fun v => v.id == receiverW.id)) = some wr := by
      rw [find?_map_of_id_eq _ _ (balanceUpd_id _ _), hwr]
      have hcond : ¬ ((wr.id == senderW.id) = true) := by simp [hwr_ne]
      simp only [Option.map_some']
      rw [if_neg hcond]
    rw [listBalance_update_eq _ _ _ hfmap]
    unfold listBalance
    rw [hwr]
    simp

/-! ## Proof support: service-operation success effects -/

theorem topUp_ok_effects {st : DbState} {u atn : String} {a : ℤ} {k : Option String}
    {st' : DbState} {txn : Transaction} (hWF : WF st)
    (h : TransactionService.topUp st u atn a k = (st', .ok txn)) :
    txn.status = TransactionStatus.COMPLETED ∧
    txn.amount = a ∧
    txn.type = TransactionType.DEPOSIT ∧
    txn.idempotencyKey = k ∧
    idempotencyLookup st k = none ∧
    st'.transactions = st.transactions ++ [txn] ∧
    (txn.senderWalletId ≠ txn.receiverWalletId →
      walletBalance st' txn.senderWalletId = walletBalance st txn.senderWalletId - a ∧
      walletBalance st' txn.receiverWalletId = walletBalance st txn.receiverWalletId + a) := by
  unfold TransactionService.topUp at h
  split at h
  · exact absurd h (by simp)
  case _ hidem =>
    split at h
    · exact absurd h (by simp)
    case _ assetType hasset =>
      split at h
      · exact absurd h (by simp)
      case _ tu htreas =>
        dsimp only [WalletService.getOrCreateWallet] at h
        split at h
        case _ txn0 st3 htr =>
          simp only [Prod.mk.injEq, Except.ok.injEq] at h
          obtain ⟨hst', htxn⟩ := h
          subst hst'
          subst htxn
          have hWF1 : WF (WalletDb.getOrCreate st tu.id assetType.id).2 :=
            getOrCreate_WF _ _ hWF
          have hWFA : WF (WalletDb.getOrCreate
              (WalletDb.getOrCreate st tu.id assetType.id).2 u assetType.id).2 :=
            getOrCreate_WF _ _ hWF1
          have hfreshA := fun t ht => hWFA.txnFresh t ht _ (le_refl _)
          obtain ⟨h1, h2, h3, h4, h5, h6, h7, h8⟩ := transferAtomic_effects hfreshA htr
          refine ⟨h1, h2, h3, h4, hidem, ?_, ?_⟩
          · rw [h7, getOrCreate_transactions, getOrCreate_transactions]
          · rw [h5, h6]
            intro hne
            obtain ⟨hs, hr⟩ := h8 hne
            rw [getOrCreate_balance, getOrCreate_balance] at hs hr
            exact ⟨hs, hr⟩
        case _ e htr => exact absurd h (by simp)

theorem issueBonus_ok_effects {st : DbState} {u atn : String} {a : ℤ} {d : String}
    {k : Option String} {st' : DbState} {txn : Transaction} (hWF : WF st)
    (h : TransactionService.issueBonus st u atn a d k = (st', .ok txn)) :
    (txn.status = TransactionStatus.COMPLETED ∧
      txn.amount = a ∧
      txn.type = TransactionType.DEPOSIT ∧
      txn.idempotencyKey = k ∧
      st'.transactions = st.transactions ++ [txn] ∧
      (txn.senderWalletId ≠ txn.receiverWalletId →
        walletBalance st' txn.senderWalletId = walletBalance st txn.senderWalletId - a ∧
        walletBalance st' txn.receiverWalletId = walletBalance st txn.receiverWalletId + a)) ∨
    (idempotencyLookup st k = some txn ∧ st' = st) := by
  unfold TransactionService.issueBonus at h
  split at h
  case _ existing hidem =>
    right
    simp only [Prod.mk.injEq, Except.ok.injEq] at h
    obtain ⟨hst', htxn⟩ := h
    subst hst'
    subst htxn
    exact ⟨hidem, rfl⟩
  case _ hidem =>
    left
    split at h
    · exact absurd h (by simp)
    case _ assetType hasset =>
      split at h
      · exact absurd h (by simp)
      case _ tu htreas =>
        dsimp only [WalletService.getOrCreateWallet] at h
        split at h
        case _ txn0 st3 htr =>
          simp only [Prod.mk.injEq, Except.ok.injEq] at h
          obtain ⟨hst', htxn⟩ := h
          subst hst'
          subst htxn
          have hWF1 : WF (WalletDb.getOrCreate st tu.id assetType.id).2 :=
            getOrCreate_WF _ _ hWF
          have hWFA : WF (WalletDb.getOrCreate
              (WalletDb.getOrCreate st tu.id assetType.id).2 u assetType.id).2 :=
            getOrCreate_WF _ _ hWF1
          have hfreshA := fun t ht => hWFA.txnFresh t ht _ (le_refl _)
          obtain ⟨h1, h2, h3, h4, h5, h6, h7, h8⟩ := transferAtomic_effects hfreshA htr
          refine ⟨h1, h2, h3, h4, ?_, ?_⟩
          · rw [h7, getOrCreate_transactions, getOrCreate_transactions]
          · rw [h5, h6]
            intro hne
            obtain ⟨hs, hr⟩ := h8 hne
            rw [getOrCreate_balance, getOrCreate_balance] at hs hr
            exact ⟨hs, hr⟩
        case _ e htr => exact absurd h (by simp)

theorem spend_ok_effects {st : DbState} {u atn : String} {a : ℤ} {d : String}
    {k : Option String} {st' : DbState} {txn : Transaction} (hWF : WF st)
    (h : TransactionService.spend st u atn a d k = (st', .ok txn)) :
    (txn.status = TransactionStatus.COMPLETED ∧
      txn.amount = a ∧
      txn.type = TransactionType.WITHDRAWAL ∧
      txn.idempotencyKey = k ∧
      st'.transactions = st.transactions ++ [txn] ∧
      (txn.senderWalletId ≠ txn.receiverWalletId →
        walletBalance st' txn.senderWalletId = walletBalance st txn.senderWalletId - a ∧
        walletBalance st' txn.receiverWalletId = walletBalance st txn.receiverWalletId + a)) ∨
    (idempotencyLookup st k = some txn ∧ st' = st) := by
  unfold TransactionService.spend at h
  split at h
  case _ existing hidem =>
    right
    simp only [Prod.mk.injEq, Except.ok.injEq] at h
    obtain ⟨hst', htxn⟩ := h
    subst hst'
    subst htxn
    exact ⟨hidem, rfl⟩
  case _ hidem =>
    left
    split at h
    · exact absurd h (by simp)
    case _ assetType hasset =>
      split at h
      · exact absurd h (by simp)
      case _ tu htreas =>
        dsimp only [WalletService.getOrCreateWallet] at h
        split at h
        case _ txn0 st3 htr =>
          simp only [Prod.mk.injEq, Except.ok.injEq] at h
          obtain ⟨hst', htxn⟩ := h
          subst hst'
          subst htxn
          have hWF1 : WF (WalletDb.getOrCreate st u assetType.id).2 :=
            getOrCreate_WF _ _ hWF
          have hWFA : WF (WalletDb.getOrCreate
              (WalletDb.getOrCreate st u assetType.id).2 tu.id assetType.id).2 :=
            getOrCreate_WF _ _ hWF1
          have hfreshA := fun t ht => hWFA.txnFresh t ht _ (le_refl _)
          obtain ⟨h1, h2, h3, h4, h5, h6, h7, h8⟩ := transferAtomic_effects hfreshA htr
          refine ⟨h1, h2, h3, h4, ?_, ?_⟩
          · rw [h7, getOrCreate_transactions, getOrCreate_transactions]
          · rw [h5, h6]
            intro hne
            obtain ⟨hs, hr⟩ := h8 hne
            rw [getOrCreate_balance, getOrCreate_balance] at hs hr
            exact ⟨hs, hr⟩
        case _ e htr => exact absurd h (by simp)

/-! ## Proof support: the insufficient-balance path -/

theorem getOrCreate_self_mem (st : DbState) (u a : String) :
    (WalletDb.getOrCreate st u a).1 ∈ (WalletDb.getOrCreate st u a).2.wallets := by
  unfold WalletDb.getOrCreate
  split
  case _ w hw => exact List.mem_of_find?_eq_some hw
  case _ => exact List.mem_append_right _ (List.mem_singleton.2 rfl)

theorem transferAtomic_insufficient (type : TransactionType) (d k : Option String)
    (ie : TxError) {st : DbState} {senderW receiverW : Wallet}
    {amount : ℤ} {ls : Wallet}
    (hs : (WalletDb.findManyByIds st (sortStrings [senderW.id, receiverW.id])).find?
      (fun w => w.id == senderW.id) = some ls)
    (hr : ((WalletDb.findManyByIds st (sortStrings [senderW.id, receiverW.id])).find?
      (fun w => w.id == receiverW.id)).isSome)
    (hguard : numberLt ls.balance amount = true) :
    TransactionService.transferAtomic st senderW receiverW amount type d k ie
      = .error ie := by
  obtain ⟨lr, hlr⟩ := Option.isSome_iff_exists.1 hr
  unfold TransactionService.transferAtomic
  rw [hs, hlr]
  simp [hguard]

theorem spend_insufficient {st : DbState} {u atn : String} {a : ℤ} {d : String}
    {k : Option String} {assetType : AssetType} {uw : Wallet}
    (hWF : WF st)
    (hidem : idempotencyLookup st k = none)
    (hasset : AssetTypeDb.findByName st atn = some assetType)
    (htreas : (UserDb.findTreasuryUser st).isSome)
    (huw : st.wallets.find? (fun w => w.userId == u && w.assetTypeId == assetType.id) = some uw)
    (hguard : numberLt uw.balance a = true) :
    ∃ st2, TransactionService.spend st u atn a d k = (st2, .error TxError.insufficientBalance) ∧
      st2.transactions = st.transactions ∧
      (∀ x, walletBalance st2 x = walletBalance st x) := by
  obtain ⟨tu, htu⟩ := Option.isSome_iff_exists.1 htreas
  have hr1 : WalletDb.getOrCreate st u assetType.id = (uw, st) := by
    unfold WalletDb.getOrCreate
    rw [huw]
  have hWFA : WF (WalletDb.getOrCreate st tu.id assetType.id).2 :=
    getOrCreate_WF _ _ hWF
  have huw_memA : uw ∈ (WalletDb.getOrCreate st tu.id assetType.id).2.wallets :=
    getOrCreate_mem _ _ _ (List.mem_of_find?_eq_some huw)
  have hmem1 : uw.id ∈ sortStrings [uw.id, (WalletDb.getOrCreate st tu.id assetType.id).1.id] := by
    unfold sortStrings
    exact ((List.perm_insertionSort _ _).mem_iff).2 (List.mem_cons_self _ _)
  have hmem2 : (WalletDb.getOrCreate st tu.id assetType.id).1.id
      ∈ sortStrings [uw.id, (WalletDb.getOrCreate st tu.id assetType.id).1.id] := by
    unfold sortStrings
    exact ((List.perm_insertionSort _ _).mem_iff).2
      (List.mem_cons_of_mem _ (List.mem_cons_self _ _))
  have hs := findManyByIds_find?
    (sortStrings [uw.id, (WalletDb.getOrCreate st tu.id assetType.id).1.id])
    hWFA.walletIdsNodup huw_memA rfl hmem1
  have hrmem := getOrCreate_self_mem st tu.id assetType.id
  have hrfind := findManyByIds_find?
    (sortStrings [uw.id, (WalletDb.getOrCreate st tu.id assetType.id).1.id])
    hWFA.walletIdsNodup hrmem rfl hmem2
  have hatomic := transferAtomic_insufficient
    TransactionType.WITHDRAWAL
    (some (if d == ("") then ("Purchase: ") ++ toString a ++ (" ") ++ atn else d))
    k TxError.insufficientBalance hs
    (by rw [hrfind]; rfl) hguard
  refine ⟨(WalletDb.getOrCreate st tu.id assetType.id).2, ?_, ?_, ?_⟩
  · unfold TransactionService.spend
    rw [hidem, hasset, htu]
    dsimp only [WalletService.getOrCreateWallet]
    rw [hr1]
    rw [hatomic]
  · exact getOrCreate_transactions _ _ _
  · intro x
    exact getOrCreate_balance _ _ _ _

/-! ## Proof support: exactness of the binary64 conversion on 53-bit dyadics -/

theorem twoPow_add (m n : ℕ) : twoPow (m + n) = twoPow m * twoPow n := by
  rw [twoPow_eq_pow, twoPow_eq_pow, twoPow_eq_pow, pow_add]

theorem twoPow_mono {m n : ℕ} (h : m ≤ n) : twoPow m ≤ twoPow n := by
  rw [twoPow_eq_pow, twoPow_eq_pow]
  exact pow_le_pow_right₀ (by norm_num) h

theorem floorLog2Aux_stable {b : ℤ} : ∀ {n k : ℕ}, k ≤ n →
    (∀ j : ℕ, k ≤ j → j < n → pow2Le ((j : ℤ) - 21) b = false) →
    floorLog2Aux b n = floorLog2Aux b k := by
  intro n
  induction n with
  | zero =>
    intro k hk _
    have : k = 0 := Nat.le_zero.1 hk
    rw [this]
  | succ n ih =>
    intro k hk hfail
    rcases Nat.eq_or_lt_of_le hk with heq | hlt
    · rw [heq]
    · have hk' : k ≤ n := Nat.lt_succ_iff.1 hlt
      rw [floorLog2Aux]
      rw [hfail n hk' (Nat.lt_succ_self n)]
      simp only [Bool.false_eq_true, if_false]
      exact ih hk' (fun j h1 h2 => hfail j h1 (Nat.lt_succ_of_lt h2))

theorem floorLog2Aux_hit {b : ℤ} {n : ℕ} (h : pow2Le ((n : ℤ) - 21) b = true) :
    floorLog2Aux b (n + 1) = (n : ℤ) - 21 := by
  rw [floorLog2Aux, h]
  simp

theorem floorLog2_eq_of {b : ℤ} {e : ℤ} (he1 : -21 ≤ e) (he2 : e ≤ 60)
    (hle : pow2Le e b = true)
    (hgt : ∀ e' : ℤ, e < e' → e' ≤ 60 → pow2Le e' b = false) :
    floorLog2 b = e := by
  have hk : ((e + 21).toNat : ℤ) = e + 21 := Int.toNat_of_nonneg (by omega)
  have hstable := floorLog2Aux_stable (b := b) (n := 82) (k := (e + 21).toNat + 1)
    (by omega)
    (fun j h1 h2 => hgt ((j : ℤ) - 21) (by omega) (by omega))
  rw [floorLog2, hstable]
  have hle2 : pow2Le ((((e + 21).toNat : ℕ) : ℤ) - 21) b = true := by
    have he : (((e + 21).toNat : ℕ) : ℤ) - 21 = e := by omega
    rw [he]
    exact hle
  rw [floorLog2Aux_hit hle2]
  omega

theorem divRoundHalfEven_mul (M d : ℤ) (hd : 0 < d) : divRoundHalfEven (M * d) d = M := by
  unfold divRoundHalfEven
  rw [Int.mul_fdiv_cancel _ (ne_of_gt hd)]
  simp [hd]

theorem pow2Le_exact_le {b M : ℤ} {s : ℕ} (hM1 : twoPow 52 ≤ M)
    (hb : b * twoPow s = M * 1000000) : pow2Le (52 - (s : ℤ)) b = true := by
  unfold pow2Le
  by_cases hcase : (0 : ℤ) ≤ 52 - (s : ℤ)
  · rw [if_pos hcase]
    simp only [decide_eq_true_eq]
    have htn : (52 - (s : ℤ)).toNat = 52 - s := by omega
    rw [htn]
    have hsplit : twoPow (52 - s) * twoPow s = twoPow 52 := by
      rw [← twoPow_add]
      congr 1
      omega
    have hmul : (1000000 * twoPow (52 - s)) * twoPow s ≤ b * twoPow s := by
      rw [mul_assoc, hsplit, hb]
      calc 1000000 * twoPow 52 = twoPow 52 * 1000000 := mul_comm _ _
        _ ≤ M * 1000000 := by
            apply mul_le_mul_of_nonneg_right hM1
            norm_num
    exact le_of_mul_le_mul_right hmul (twoPow_pos s)
  · rw [if_neg hcase]
    simp only [decide_eq_true_eq]
    have htn : (-(52 - (s : ℤ))).toNat = s - 52 := by omega
    rw [htn]
    have hsplit : twoPow (s - 52) * twoPow 52 = twoPow s := by
      rw [← twoPow_add]
      congr 1
      omega
    have hmul : 1000000 * twoPow 52 ≤ (b * twoPow (s - 52)) * twoPow 52 := by
      rw [mul_assoc, hsplit, hb]
      calc 1000000 * twoPow 52 = twoPow 52 * 1000000 := mul_comm _ _
        _ ≤ M * 1000000 := by
            apply mul_le_mul_of_nonneg_right hM1
            norm_num
    exact le_of_mul_le_mul_right hmul (twoPow_pos 52)

theorem pow2Le_exact_gt {b M : ℤ} {s : ℕ} (hM2 : M < twoPow 53)
    (hb : b * twoPow s = M * 1000000) :
    ∀ e' : ℤ, 52 - (s : ℤ) < e' → pow2Le e' b = false := by
  intro e' he'
  unfold pow2Le
  by_cases hcase : (0 : ℤ) ≤ e'
  · rw [if_pos hcase]
    simp only [decide_eq_false_iff_not, not_le]
    have hge : 53 ≤ e'.toNat + s := by omega
    have h1 : b * twoPow s < (1000000 * twoPow e'.toNat) * twoPow s := by
      rw [hb, mul_assoc, ← twoPow_add]
      calc M * 1000000 < twoPow 53 * 1000000 := by
            apply mul_lt_mul_of_pos_right hM2
            norm_num
        _ ≤ twoPow (e'.toNat + s) * 1000000 := by
            apply mul_le_mul_of_nonneg_right (twoPow_mono hge)
            norm_num
        _ = 1000000 * twoPow (e'.toNat + s) := mul_comm _ _
    exact lt_of_mul_lt_mul_right h1 (le_of_lt (twoPow_pos s))
  · rw [if_neg hcase]
    simp only [decide_eq_false_iff_not, not_le]
    have hm : (-e').toNat + 53 ≤ s := by omega
    have hsplit : twoPow (-e').toNat * twoPow (s - (-e').toNat) = twoPow s := by
      rw [← twoPow_add]
      congr 1
      omega
    have hge : 53 ≤ s - (-e').toNat := by omega
    have h1 : (b * twoPow (-e').toNat) * twoPow (s - (-e').toNat)
        < 1000000 * twoPow (s - (-e').toNat) := by
      rw [mul_assoc, hsplit, hb]
      calc M * 1000000 < twoPow 53 * 1000000 := by
            apply mul_lt_mul_of_pos_right hM2
            norm_num
        _ ≤ twoPow (s - (-e').toNat) * 1000000 := by
            apply mul_le_mul_of_nonneg_right (twoPow_mono hge)
            norm_num
        _ = 1000000 * twoPow (s - (-e').toNat) := mul_comm _ _
    exact lt_of_mul_lt_mul_right h1 (le_of_lt (twoPow_pos _))

theorem dbl_exact {b M : ℤ} {s : ℕ} (hs : s ≤ 73)
    (hM1 : twoPow 52 ≤ M) (hM2 : M < twoPow 53)
    (hb : b * twoPow s = M * 1000000) : dbl b = (M, s) := by
  have hMpos : 0 < M := lt_of_lt_of_le (twoPow_pos 52) hM1
  have hbpos : 0 < b := by nlinarith [twoPow_pos s]
  have hfl : floorLog2 b = 52 - (s : ℤ) := by
    apply floorLog2_eq_of (by omega) (by omega) (pow2Le_exact_le hM1 hb)
    intro e' h1 _
    exact pow2Le_exact_gt hM2 hb e' h1
  rw [dbl, if_neg (by omega : ¬ b < 0)]
  unfold dblPos
  rw [hfl]
  dsimp only
  have hsn : (52 - (52 - (s : ℤ))).toNat = s := by omega
  rw [hsn, hb, divRoundHalfEven_mul _ _ (by norm_num)]

theorem numberLt_exact {b1 b2 M1 M2 : ℤ} {s1 s2 : ℕ}
    (h1 : dbl b1 = (M1, s1)) (h2 : dbl b2 = (M2, s2))
    (hb1 : b1 * twoPow s1 = M1 * 1000000) (hb2 : b2 * twoPow s2 = M2 * 1000000) :
    (numberLt b1 b2 = true) ↔ b1 < b2 := by
  unfold numberLt
  rw [h1, h2]
  unfold dblLt
  simp only [decide_eq_true_eq]
  have e1 : (M1 * twoPow s2) * 1000000 = b1 * (twoPow s1 * twoPow s2) := by
    calc (M1 * twoPow s2) * 1000000 = (M1 * 1000000) * twoPow s2 := by ring
      _ = (b1 * twoPow s1) * twoPow s2 := by rw [hb1]
      _ = b1 * (twoPow s1 * twoPow s2) := by ring
  have e2 : (M2 * twoPow s1) * 1000000 = b2 * (twoPow s1 * twoPow s2) := by
    calc (M2 * twoPow s1) * 1000000 = (M2 * 1000000) * twoPow s1 := by ring
      _ = (b2 * twoPow s2) * twoPow s1 := by rw [hb2]
      _ = b2 * (twoPow s1 * twoPow s2) := by ring
  constructor
  · intro h
    have := (mul_lt_mul_right (show (0 : ℤ) < 1000000 by norm_num)).2 h
    rw [e1, e2] at this
    exact lt_of_mul_lt_mul_right this
      (le_of_lt (mul_pos (twoPow_pos s1) (twoPow_pos s2)))
  · intro h
    have := (mul_lt_mul_right (mul_pos (twoPow_pos s1) (twoPow_pos s2))).2 h
    rw [← e1, ← e2] at this
    exact lt_of_mul_lt_mul_right this (by norm_num)

/-! ## Proof support: the lexicographic id order -/

theorem charListLe_total : ∀ (l1 l2 : List Char),
    charListLe l1 l2 = true ∨ charListLe l2 l1 = true := by
  intro l1
  induction l1 with
  | nil => intro l2; left; rfl
  | cons c cs ih =>
    intro l2
    cases l2 with
    | nil => right; rfl
    | cons d ds =>
      by_cases h1 : c.val.toNat < d.val.toNat
      · left
        unfold charListLe
        rw [if_pos h1]
      · by_cases h2 : d.val.toNat < c.val.toNat
        · right
          unfold charListLe
          rw [if_pos h2]
        · rcases ih ds with h | h
          · left
            unfold charListLe
            rw [if_neg h1, if_neg h2]
            exact h
          · right
            unfold charListLe
            rw [if_neg h2, if_neg h1]
            exact h

theorem charListLe_trans : ∀ (l1 l2 l3 : List Char),
    charListLe l1 l2 = true → charListLe l2 l3 = true → charListLe l1 l3 = true := by
  intro l1
  induction l1 with
  | nil => intro l2 l3 _ _; rfl
  | cons c cs ih =>
    intro l2 l3 h12 h23
    cases l2 with
    | nil => simp [charListLe] at h12
    | cons d ds =>
      cases l3 with
      | nil => simp [charListLe] at h23
      | cons e es =>
        have h12' : c.val.toNat < d.val.toNat ∨
            (c.val.toNat = d.val.toNat ∧ charListLe cs ds = true) := by
          unfold charListLe at h12
          by_cases hcd : c.val.toNat < d.val.toNat
          · exact Or.inl hcd
          · by_cases hdc : d.val.toNat < c.val.toNat
            · rw [if_neg hcd, if_pos hdc] at h12
              exact absurd h12 (by simp)
            · rw [if_neg hcd, if_neg hdc] at h12
              exact Or.inr ⟨by omega, h12⟩
        have h23' : d.val.toNat < e.val.toNat ∨
            (d.val.toNat = e.val.toNat ∧ charListLe ds es = true) := by
          unfold charListLe at h23
          by_cases hde : d.val.toNat < e.val.toNat
          · exact Or.inl hde
          · by_cases hed : e.val.toNat < d.val.toNat
            · rw [if_neg hde, if_pos hed] at h23
              exact absurd h23 (by simp)
            · rw [if_neg hde, if_neg hed] at h23
              exact Or.inr ⟨by omega, h23⟩
        unfold charListLe
        rcases h12' with hcd | ⟨heq1, hrec1⟩ <;> rcases h23' with hde | ⟨heq2, hrec2⟩
        · rw [if_pos (by omega : c.val.toNat < e.val.toNat)]
        · rw [if_pos (by omega : c.val.toNat < e.val.toNat)]
        · rw [if_pos (by omega : c.val.toNat < e.val.toNat)]
        · rw [if_neg (by omega : ¬ c.val.toNat < e.val.toNat),
              if_neg (by omega : ¬ e.val.toNat < c.val.toNat)]
          exact ih ds es hrec1 hrec2

theorem strLe_total (s t : String) : strLe s t = true ∨ strLe t s = true :=
  charListLe_total s.data t.data

theorem strLe_trans {s t u : String} (h1 : strLe s t = true) (h2 : strLe t u = true) :
    strLe s u = true :=
  charListLe_trans s.data t.data u.data h1 h2

instance : IsTotal Wallet walletIdLe := ⟨fun a b => strLe_total a.id b.id⟩

instance : IsTrans Wallet walletIdLe := ⟨fun _ _ _ => strLe_trans⟩

theorem contains_eq_of_mem_iff {l1 l2 : List String} (h : ∀ x, x ∈ l1 ↔ x ∈ l2) :
    ∀ x, l1.contains x = l2.contains x := by
  intro x
  show List.elem x l1 = List.elem x l2
  by_cases hx : x ∈ l2
  · rw [List.elem_iff.2 ((h x).2 hx), List.elem_iff.2 hx]
  · have h1 : ¬ List.elem x l1 = true := fun hc => hx ((h x).1 (List.elem_iff.1 hc))
    have h2 : ¬ List.elem x l2 = true := fun hc => hx (List.elem_iff.1 hc)
    rw [Bool.not_eq_true] at h1 h2
    rw [h1, h2]

/-! ## Concrete states used to instantiate the theorems -/

/-- A small populated database: one asset type, the treasury user (1,000,000.000000
GOLD) and an ordinary user (50.000000 GOLD). -/
def stTest : DbState :=
  { assetTypes := [⟨("at-gold"), ("GOLD")⟩],
    users := [⟨("u-treasury"), ("treasury@wallet.internal"), ("System Treasury")⟩,
              ⟨("u-alice"), ("alice@example.com"), ("Alice")⟩],
    wallets := [⟨("wA"), ("u-treasury"), ("at-gold"), 1000000000000⟩,
                ⟨("wB"), ("u-alice"), ("at-gold"), 50000000⟩],
    transactions := [],
    nextId := 0 }

/-- A prior DEPOSIT ledger entry carrying idempotency key `k1`. -/
def txnDup : Transaction :=
  { id := ("t-prior"), senderWalletId := ("wA"), receiverWalletId := ("wB"),
    amount := 10000000, type := TransactionType.DEPOSIT,
    status := TransactionStatus.COMPLETED, description := none,
    idempotencyKey := some ("k1") }

/-- `stTest` with the prior keyed ledger entry `txnDup` persisted. -/
def stDup : DbState :=
  { assetTypes := [⟨("at-gold"), ("GOLD")⟩],
    users := [⟨("u-treasury"), ("treasury@wallet.internal"), ("System Treasury")⟩,
              ⟨("u-alice"), ("alice@example.com"), ("Alice")⟩],
    wallets := [⟨("wA"), ("u-treasury"), ("at-gold"), 1000000000000⟩,
                ⟨("wB"), ("u-alice"), ("at-gold"), 50000000⟩],
    transactions := [txnDup],
    nextId := 0 }

/-- A state whose user balance `549755813887.999999` (micro-units `2^39·10^6 − 1`)
is NOT binary64-representable: `Number()` rounds it up to `549755813888`. -/
def stBig : DbState :=
  { assetTypes := [⟨("at-gold"), ("GOLD")⟩],
    users := [⟨("u-treasury"), ("treasury@wallet.internal"), ("System Treasury")⟩,
              ⟨("u-alice"), ("alice@example.com"), ("Alice")⟩],
    wallets := [⟨("wA"), ("u-treasury"), ("at-gold"), 0⟩,
                ⟨("wB"), ("u-alice"), ("at-gold"), 549755813887999999⟩],
    transactions := [],
    nextId := 0 }

theorem WF_stTest : WF stTest := by
  refine ⟨by decide, by decide, ?_, ?_⟩
  · intro w hw n _
    simp only [stTest, List.mem_cons, List.not_mem_nil, or_false] at hw
    rcases hw with rfl | rfl
    · exact ne_genId_of_head (by decide) n
    · exact ne_genId_of_head (by decide) n
  · intro t ht n _
    simp [stTest] at ht

theorem WF_stDup : WF stDup := by
  refine ⟨by decide, by decide, ?_, ?_⟩
  · intro w hw n _
    simp only [stDup, List.mem_cons, List.not_mem_nil, or_false] at hw
    rcases hw with rfl | rfl
    · exact ne_genId_of_head (by decide) n
    · exact ne_genId_of_head (by decide) n
  · intro t ht n _
    simp only [stDup, List.mem_cons, List.not_mem_nil, or_false] at ht
    rcases ht with rfl
    exact ne_genId_of_head (by decide) n

theorem WF_stBig : WF stBig := by
  refine ⟨by decide, by decide, ?_, ?_⟩
  · intro w hw n _
    simp only [stBig, List.mem_cons, List.not_mem_nil, or_false] at hw
    rcases hw with rfl | rfl
    · exact ne_genId_of_head (by decide) n
    · exact ne_genId_of_head (by decide) n
  · intro t ht n _
    simp [stBig] at ht

/-! ## The claims -/

/-- C3: For every `topUp` call supplying an idempotency key that matches an
existing ledger entry, the call is rejected with the duplicate-key error
(`DuplicateRequest`, thrown as `"Idempotency Key Already Exists"`), and the
database state is returned entirely unchanged — so no second ledger entry is
created and the receiver's balance is not credited again. -/
theorem C3_topUp_duplicate_rejected (st : DbState) (u atn : String) (a : ℤ)
    (key : String) (e : Transaction)
    (h : TransactionDb.findByIdempotencyKey st key = some e) :
    TransactionService.topUp st u atn a (some key)
      = (st, .error TxError.duplicateIdempotencyKey) := by
  unfold TransactionService.topUp
  rw [show idempotencyLookup st (some key) = some e from h]

/-- Witness for C3 at a concrete state: a prior entry with key `k1` exists and a
re-issued topUp with `k1` is rejected leaving the state unchanged. -/
theorem C3_witness :
    TransactionService.topUp stDup ("u-alice") ("GOLD") 25000000 (some ("k1"))
      = (stDup, .error TxError.duplicateIdempotencyKey) :=
  C3_topUp_duplicate_rejected stDup ("u-alice") ("GOLD") 25000000 ("k1") txnDup (by decide)

/-- C4: For every `issueBonus` or `spend` call supplying an idempotency key that
matches an existing ledger entry, the call returns that prior ledger entry
unchanged, and the database state is returned entirely unchanged — no balance
mutation and no new ledger entry. -/
theorem C4_idempotent_replay (st : DbState) (u atn : String) (a : ℤ) (d : String)
    (key : String) (e : Transaction)
    (h : TransactionDb.findByIdempotencyKey st key = some e) :
    TransactionService.issueBonus st u atn a d (some key) = (st, .ok e) ∧
    TransactionService.spend st u atn a d (some key) = (st, .ok e) := by
  constructor
  · unfold TransactionService.issueBonus
    rw [show idempotencyLookup st (some key) = some e from h]
  · unfold TransactionService.spend
    rw [show idempotencyLookup st (some key) = some e from h]

/-- Witness for C4 at a concrete state: replaying key `k1` on both operations
returns the prior entry and leaves the state unchanged. -/
theorem C4_witness :
    TransactionService.issueBonus stDup ("u-alice") ("GOLD") 77000000 ("again") (some ("k1"))
        = (stDup, .ok txnDup) ∧
    TransactionService.spend stDup ("u-alice") ("GOLD") 77000000 ("again") (some ("k1"))
        = (stDup, .ok txnDup) :=
  C4_idempotent_replay stDup ("u-alice") ("GOLD") 77000000 ("again") ("k1") txnDup (by decide)

/-- C7: `findManyByIds` returns the wallets sorted ascending by id (in the
lexicographic id order `walletIdLe`), and its result does not depend on the
order in which the wallet ids were supplied — so any two transfers touching the
same pair of wallets acquire them in the same relative order. -/
theorem C7_lock_fetch_sorted (st : DbState) (ids : List String) :
    (WalletDb.findManyByIds st ids).Sorted walletIdLe ∧
    (∀ ids2, ids2.Perm ids →
      WalletDb.findManyByIds st ids2 = WalletDb.findManyByIds st ids) := by
  constructor
  · unfold WalletDb.findManyByIds
    dsimp only
    split
    · exact List.sorted_nil
    · exact List.sorted_insertionSort walletIdLe _
  · intro ids2 hperm
    unfold WalletDb.findManyByIds
    dsimp only
    have hlen : (sortStrings ids2).length = (sortStrings ids).length := by
      unfold sortStrings
      rw [(List.perm_insertionSort _ _).length_eq, (List.perm_insertionSort _ _).length_eq]
      exact hperm.length_eq
    have hmem : ∀ x, x ∈ sortStrings ids2 ↔ x ∈ sortStrings ids := by
      intro x
      unfold sortStrings
      rw [(List.perm_insertionSort _ _).mem_iff, (List.perm_insertionSort _ _).mem_iff]
      exact hperm.mem_iff
    have hfilter : st.wallets.filter (fun w => (sortStrings ids2).contains w.id)
        = st.wallets.filter (fun w => (sortStrings ids).contains w.id) :=
      List.filter_congr (fun w _ => contains_eq_of_mem_iff hmem w.id)
    rw [hlen, hfilter]

/-- Witness for C7: supplying the two wallet ids of `stTest` in either order
yields the same (sorted) fetch result. -/
theorem C7_witness :
    WalletDb.findManyByIds stTest [("wB"), ("wA")]
      = WalletDb.findManyByIds stTest [("wA"), ("wB")] :=
  (C7_lock_fetch_sorted stTest [("wA"), ("wB")]).2 [("wB"), ("wA")] (by decide)

/-- C5 counterexample: the service-layer transfer operations perform NO amount
validation.  A direct `topUp` with amount 0 is not rejected: it performs the
lookups, creates a ledger entry and completes; with amount −5.000000 it even
moves 5.000000 from the user to the treasury (a reverse transfer).  The claimed
`InvalidAmount` rejection before any storage access exists only in the HTTP
route layer. -/
theorem C5_counterexample :
    (TransactionService.topUp stTest ("u-alice") ("GOLD") 0 none).2
        = .ok { id := genId 0, senderWalletId := ("wA"), receiverWalletId := ("wB"),
                amount := 0, type := TransactionType.DEPOSIT,
                status := TransactionStatus.COMPLETED,
                description := some (("Top-up: 0 GOLD")), idempotencyKey := none } ∧
    (TransactionService.topUp stTest ("u-alice") ("GOLD") 0 none).1.transactions.length = 1 ∧
    (TransactionService.topUp stTest ("u-alice") ("GOLD") (-5000000) none).2.isOk = true ∧
    walletBalance (TransactionService.topUp stTest ("u-alice") ("GOLD") (-5000000) none).1 ("wB")
        = 45000000 := by decide

/-- C5 amended: the `amount > 0` validation is performed by the HTTP route
handlers, not by the transfer operations themselves.  For every route invocation
with the required fields present and `amount ≤ 0`, all three transaction routes
reject with "Amount must be greater than 0" and return the database state
unchanged — no lookup, wallet creation, or balance mutation occurs. -/
theorem C5_routes_reject_nonpositive (st : DbState) (uid atn : String) (a : ℤ)
    (d : String) (k : Option String)
    (h1 : uid ≠ ("")) (h2 : atn ≠ ("")) (h3 : d ≠ ("")) (ha : a ≤ 0) :
    Routes.topUp st uid atn a k = (st, .badRequest ("Amount must be greater than 0")) ∧
    Routes.bonus st uid atn a d k = (st, .badRequest ("Amount must be greater than 0")) ∧
    Routes.spend st uid atn a d k = (st, .badRequest ("Amount must be greater than 0")) := by
  have hb1 : (uid == ("")) = false := by
    rw [beq_eq_false_iff_ne]
    exact h1
  have hb2 : (atn == ("")) = false := by
    rw [beq_eq_false_iff_ne]
    exact h2
  have hb3 : (d == ("")) = false := by
    rw [beq_eq_false_iff_ne]
    exact h3
  refine ⟨?_, ?_, ?_⟩
  · unfold Routes.topUp
    rw [hb1, hb2]
    simp only [Bool.or_self, Bool.false_eq_true, if_false]
    rw [if_pos ha]
  · unfold Routes.bonus
    rw [hb1, hb2]
    simp only [Bool.or_self, Bool.false_eq_true, if_false]
    rw [if_pos ha]
  · unfold Routes.spend
    rw [hb1, hb2, hb3]
    simp only [Bool.or_self, Bool.false_eq_true, if_false]
    rw [if_pos ha]

/-- Witness for the amended C5 at a concrete request with amount 0. -/
theorem C5_witness :
    Routes.topUp stTest ("u-alice") ("GOLD") 0 none
        = (stTest, .badRequest ("Amount must be greater than 0")) ∧
    Routes.bonus stTest ("u-alice") ("GOLD") 0 ("promo") none
        = (stTest, .badRequest ("Amount must be greater than 0")) ∧
    Routes.spend stTest ("u-alice") ("GOLD") 0 ("item") none
        = (stTest, .badRequest ("Amount must be greater than 0")) := by
  have h := C5_routes_reject_nonpositive stTest ("u-alice") ("GOLD") 0 ("item") none
    (by decide) (by decide) (by decide) (by decide)
  have h2 := C5_routes_reject_nonpositive stTest ("u-alice") ("GOLD") 0 ("promo") none
    (by decide) (by decide) (by decide) (by decide)
  exact ⟨h.1, h2.2.1, h.2.2⟩

/-- C6 counterexample: the debit primitive the Transfer Engine actually calls is
the UNCHECKED `decrementBalance` (see `TransactionService.transferAtomic`): it
performs no balance comparison at all, succeeds on a wallet holding 50.000000
when asked to debit 100.000000, and drives the balance to −50.000000 < 0. -/
theorem C6_counterexample :
    (WalletDb.decrementBalance stTest ("wB") 100000000).toOption.map
        (fun p => p.1.balance) = some (-50000000) ∧
    walletBalance stTest ("wB") = 50000000 ∧
    ((-50000000 : ℤ) < 0) := by decide

/-- C6 amended: the Wallet Store's CHECKED debit `decrementBalanceWithCheck` —
present in the Wallet Store but never called by the Transfer Engine, which uses
the unchecked `decrementBalance` after its own inline `Number()`-based guard —
(i) fails with `InsufficientBalance` exactly when the binary64 comparison
`Number(balance) < amount` holds, (ii) otherwise debits exactly `amount` in one
read-modify-write, and (iii) never drives the balance below 0 provided balance
and amount are binary64-representable (53-bit dyadics). -/
theorem C6_checked_debit (st : DbState) (wid : String) (a : ℤ) (w : Wallet)
    (hfind : st.wallets.find? (fun v => v.id == wid) = some w) :
    (numberLt w.balance a = true →
      WalletDb.decrementBalanceWithCheck st wid a = .error TxError.insufficientBalance) ∧
    (numberLt w.balance a = false →
      WalletDb.decrementBalanceWithCheck st wid a
          = .ok ({ w with balance := w.balance - a },
            { st with wallets := (st.wallets.map
              (fun v => if v.id == wid then { v with balance := v.balance - a } else v)) }) ∧
      walletBalance { st with wallets := (st.wallets.map
          (fun v => if v.id == wid then { v with balance := v.balance - a } else v)) } wid
        = w.balance - a) ∧
    (numberLt w.balance a = false →
      ∀ M1 M2 : ℤ, ∀ s1 s2 : ℕ, s1 ≤ 73 → s2 ≤ 73 →
        twoPow 52 ≤ M1 → M1 < twoPow 53 → twoPow 52 ≤ M2 → M2 < twoPow 53 →
        w.balance * twoPow s1 = M1 * 1000000 → a * twoPow s2 = M2 * 1000000 →
        0 ≤ w.balance - a) := by
  refine ⟨?_, ?_, ?_⟩
  · intro hguard
    unfold WalletDb.decrementBalanceWithCheck
    rw [hfind]
    simp [hguard]
  · intro hguard
    constructor
    · unfold WalletDb.decrementBalanceWithCheck
      rw [hfind]
      simp [hguard]
    · exact listBalance_update_eq st.wallets wid _ hfind
  · intro hguard M1 M2 s1 s2 hs1 hs2 hM1a hM1b hM2a hM2b hb1 hb2
    have hiff := numberLt_exact (dbl_exact hs1 hM1a hM1b hb1)
      (dbl_exact hs2 hM2a hM2b hb2) hb1 hb2
    have : ¬ (w.balance < a) := by
      intro hlt
      rw [hiff.2 hlt] at hguard
      exact absurd hguard (by simp)
    omega

/-- Witness for the amended C6: debiting 100 from a 50-balance wallet through the
checked primitive fails with `InsufficientBalance`. -/
theorem C6_witness :
    WalletDb.decrementBalanceWithCheck stTest ("wB") 100000000
      = .error TxError.insufficientBalance :=
  (C6_checked_debit stTest ("wB") 100000000
    ⟨("wB"), ("u-alice"), ("at-gold"), 50000000⟩ (by decide)).1 (by decide)

/-- A state whose user balance `549755813888.999999` is one micro-unit below the
integer `549755813889`; binary64 cannot distinguish the two. -/
def stC9 : DbState :=
  { assetTypes := [⟨("at-gold"), ("GOLD")⟩],
    users := [⟨("u-treasury"), ("treasury@wallet.internal"), ("System Treasury")⟩,
              ⟨("u-alice"), ("alice@example.com"), ("Alice")⟩],
    wallets := [⟨("wA"), ("u-treasury"), ("at-gold"), 0⟩,
                ⟨("wB"), ("u-alice"), ("at-gold"), 549755813888999999⟩],
    transactions := [],
    nextId := 0 }

/-- C9 counterexample: balance and amount comparisons in the engine ARE carried
in binary floating point.  The two distinct `DECIMAL(18,6)` values
`549755813888.999999` (micro-units `549755813888999999`) and `549755813889`
satisfy `b < a` exactly, yet the embedded JS comparison `Number(b) < a`
(`numberLt`, used by the balance checks of `topUp`/`issueBonus`/`spend` and by
`decrementBalanceWithCheck`) is FALSE — binary64 rounds the balance up to the
amount — so a spend of `549755813889` against that balance succeeds. -/
theorem C9_counterexample :
    (549755813888999999 : ℤ) < 549755813889000000 ∧
    numberLt 549755813888999999 549755813889000000 = false ∧
    (TransactionService.spend stC9 ("u-alice") ("GOLD") 549755813889000000 ("item") none).2.isOk
      = true := by decide

/-- C9 amended: stored balances and applied mutations are exact `DECIMAL(18,6)`
values (the ledger and wallet columns), and responses serialize them as decimal
strings; but `amount` crosses the HTTP boundary as a binary64 JSON number and
the engine's balance checks convert the stored decimal to binary64 (`Number()`),
so the comparison is performed in binary floating point.  It agrees with exact
decimal comparison precisely on binary64-representable values: whenever balance
and amount are 53-bit dyadics (as below), `Number(b) < Number(a)` iff `b < a`. -/
theorem C9_float_comparison_exact_on_dyadics (b1 b2 M1 M2 : ℤ) (s1 s2 : ℕ)
    (hs1 : s1 ≤ 73) (hs2 : s2 ≤ 73)
    (hM1a : twoPow 52 ≤ M1) (hM1b : M1 < twoPow 53)
    (hM2a : twoPow 52 ≤ M2) (hM2b : M2 < twoPow 53)
    (hb1 : b1 * twoPow s1 = M1 * 1000000) (hb2 : b2 * twoPow s2 = M2 * 1000000) :
    numberLt b1 b2 = true ↔ b1 < b2 :=
  numberLt_exact (dbl_exact hs1 hM1a hM1b hb1) (dbl_exact hs2 hM2a hM2b hb2) hb1 hb2

/-- Witness for the amended C9: balances 50.000000 and 100.000000 are both
53-bit dyadics, and the binary64 comparison agrees with the exact one. -/
theorem C9_witness : numberLt 50000000 100000000 = true :=
  (C9_float_comparison_exact_on_dyadics 50000000 100000000
    7036874417766400 7036874417766400 47 46
    (by decide) (by decide) (by decide) (by decide) (by decide) (by decide)
    (by decide) (by decide)).2 (by decide)

/-- C2 counterexample: the claim as stated is false.  With user balance
`549755813887.999999`, STRICTLY LESS than the requested amount `549755813888`,
the spend SUCCEEDS (binary64 rounds the balance up to exactly the amount, so the
`Number(balance) < amount` guard does not fire), a ledger entry is persisted,
and the wallet balance is driven to `−0.000001 < 0`. -/
theorem C2_counterexample :
    walletBalance stBig ("wB") = 549755813887999999 ∧
    (549755813887999999 : ℤ) < 549755813888000000 ∧
    (TransactionService.spend stBig ("u-alice") ("GOLD") 549755813888000000 ("item") none).2.isOk
      = true ∧
    walletBalance
      (TransactionService.spend stBig ("u-alice") ("GOLD") 549755813888000000 ("item") none).1
      ("wB") = -1 ∧
    (TransactionService.spend stBig ("u-alice") ("GOLD") 549755813888000000 ("item") none).1.transactions.length
      = 1 := by decide

/-- C2 amended: for every spend call that reaches the balance check (no
idempotency hit, asset and treasury resolved, the user's wallet exists) where
the BINARY64 comparison `Number(balance) < amount` holds at lock time, the
operation fails with `InsufficientBalance`, the user's wallet balance is
unchanged, every wallet balance is unchanged, and no ledger entry is persisted
(the atomic unit aborts with no partial state; only the guard is the binary64
comparison rather than the exact decimal one). -/
theorem C2_spend_insufficient_aborts (assetType : AssetType) (uw : Wallet)
    {st : DbState} {u atn : String} {a : ℤ} {d : String} {k : Option String}
    (hWF : WF st)
    (hidem : idempotencyLookup st k = none)
    (hasset : AssetTypeDb.findByName st atn = some assetType)
    (htreas : (UserDb.findTreasuryUser st).isSome)
    (huw : st.wallets.find? (fun w => w.userId == u && w.assetTypeId == assetType.id) = some uw)
    (hguard : numberLt uw.balance a = true) :
    ∃ st2, TransactionService.spend st u atn a d k = (st2, .error TxError.insufficientBalance) ∧
      st2.transactions = st.transactions ∧
      (∀ x, walletBalance st2 x = walletBalance st x) :=
  spend_insufficient hWF hidem hasset htreas huw hguard

/-- Witness for the amended C2: spending 100.000000 against a 50.000000 balance
fails with `InsufficientBalance` and changes nothing. -/
theorem C2_witness :
    ∃ st2, TransactionService.spend stTest ("u-alice") ("GOLD") 100000000 ("item") none
        = (st2, .error TxError.insufficientBalance) ∧
      st2.transactions = stTest.transactions ∧
      (∀ x, walletBalance st2 x = walletBalance stTest x) :=
  C2_spend_insufficient_aborts ⟨("at-gold"), ("GOLD")⟩
    ⟨("wB"), ("u-alice"), ("at-gold"), 50000000⟩
    WF_stTest rfl (by decide) (by decide) (by decide) (by decide)

/-- C1 counterexample: the claim as stated fails for a self-transfer.  When the
`userId` passed to `topUp` is the treasury user itself, sender and receiver are
the SAME wallet; the operation completes successfully with amount 100.000000,
yet the sender wallet's balance afterwards equals its balance before — not
before − amount. -/
theorem C1_counterexample :
    (TransactionService.topUp stTest ("u-treasury") ("GOLD") 100000000 none).2
        = .ok { id := genId 0, senderWalletId := ("wA"), receiverWalletId := ("wA"),
                amount := 100000000, type := TransactionType.DEPOSIT,
                status := TransactionStatus.COMPLETED,
                description := some (("Top-up: 100000000 GOLD")), idempotencyKey := none } ∧
    walletBalance (TransactionService.topUp stTest ("u-treasury") ("GOLD") 100000000 none).1 ("wA")
        = 1000000000000 ∧
    walletBalance stTest ("wA") = 1000000000000 ∧
    (1000000000000 : ℤ) ≠ 1000000000000 - 100000000 := by decide

/-- C1 amended: for every transfer operation (`topUp`, `issueBonus`, `spend`)
that actually performs a transfer (for `issueBonus`/`spend`: no idempotency-key
hit) and completes successfully with amount `a`, PROVIDED the sender and
receiver wallets are distinct, the sender's balance decreases by exactly `a`,
the receiver's increases by exactly `a`, and their sum is conserved.  (In the
degenerate self-transfer case the two wallets coincide and the balance is
unchanged — conservation still holds, but the two delta equations do not.) -/
theorem C1_transfer_balance_deltas :
    (∀ st u atn a k st' txn, WF st →
      TransactionService.topUp st u atn a k = (st', .ok txn) →
      txn.senderWalletId ≠ txn.receiverWalletId →
      walletBalance st' txn.senderWalletId = walletBalance st txn.senderWalletId - a ∧
      walletBalance st' txn.receiverWalletId = walletBalance st txn.receiverWalletId + a ∧
      walletBalance st' txn.senderWalletId + walletBalance st' txn.receiverWalletId
        = walletBalance st txn.senderWalletId + walletBalance st txn.receiverWalletId) ∧
    (∀ st u atn a d k st' txn, WF st → idempotencyLookup st k = none →
      TransactionService.issueBonus st u atn a d k = (st', .ok txn) →
      txn.senderWalletId ≠ txn.receiverWalletId →
      walletBalance st' txn.senderWalletId = walletBalance st txn.senderWalletId - a ∧
      walletBalance st' txn.receiverWalletId = walletBalance st txn.receiverWalletId + a ∧
      walletBalance st' txn.senderWalletId + walletBalance st' txn.receiverWalletId
        = walletBalance st txn.senderWalletId + walletBalance st txn.receiverWalletId) ∧
    (∀ st u atn a d k st' txn, WF st → idempotencyLookup st k = none →
      TransactionService.spend st u atn a d k = (st', .ok txn) →
      txn.senderWalletId ≠ txn.receiverWalletId →
      walletBalance st' txn.senderWalletId = walletBalance st txn.senderWalletId - a ∧
      walletBalance st' txn.receiverWalletId = walletBalance st txn.receiverWalletId + a ∧
      walletBalance st' txn.senderWalletId + walletBalance st' txn.receiverWalletId
        = walletBalance st txn.senderWalletId + walletBalance st txn.receiverWalletId) := by
  refine ⟨?_, ?_, ?_⟩
  · intro st u atn a k st' txn hWF h hne
    obtain ⟨_, _, _, _, _, _, h7⟩ := topUp_ok_effects hWF h
    obtain ⟨hs, hr⟩ := h7 hne
    exact ⟨hs, hr, by omega⟩
  · intro st u atn a d k st' txn hWF hidem h hne
    rcases issueBonus_ok_effects hWF h with ⟨_, _, _, _, _, h7⟩ | ⟨hsome, _⟩
    · obtain ⟨hs, hr⟩ := h7 hne
      exact ⟨hs, hr, by omega⟩
    · rw [hidem] at hsome
      exact absurd hsome (by simp)
  · intro st u atn a d k st' txn hWF hidem h hne
    rcases spend_ok_effects hWF h with ⟨_, _, _, _, _, h7⟩ | ⟨hsome, _⟩
    · obtain ⟨hs, hr⟩ := h7 hne
      exact ⟨hs, hr, by omega⟩
    · rw [hidem] at hsome
      exact absurd hsome (by simp)

/-- The ledger entry produced by `topUp stTest "u-alice" "GOLD" 100000000`. -/
def txnTopUpEx : Transaction :=
  { id := genId 0, senderWalletId := ("wA"), receiverWalletId := ("wB"),
    amount := 100000000, type := TransactionType.DEPOSIT,
    status := TransactionStatus.COMPLETED,
    description := some (("Top-up: 100000000 GOLD")), idempotencyKey := none }

/-- The ledger entry produced by `issueBonus stTest "u-alice" "GOLD" 100000000 "promo"`. -/
def txnBonusEx : Transaction :=
  { id := genId 0, senderWalletId := ("wA"), receiverWalletId := ("wB"),
    amount := 100000000, type := TransactionType.DEPOSIT,
    status := TransactionStatus.COMPLETED,
    description := some (("promo")), idempotencyKey := none }

/-- The ledger entry produced by `spend stTest "u-alice" "GOLD" 10000000 "gear"`. -/
def txnSpendEx : Transaction :=
  { id := genId 0, senderWalletId := ("wB"), receiverWalletId := ("wA"),
    amount := 10000000, type := TransactionType.WITHDRAWAL,
    status := TransactionStatus.COMPLETED,
    description := some (("gear")), idempotencyKey := none }

/-- Witness for the amended C1 on concrete runs of all three operations. -/
theorem C1_witness :
    (walletBalance (TransactionService.topUp stTest ("u-alice") ("GOLD") 100000000 none).1 ("wA")
        = walletBalance stTest ("wA") - 100000000 ∧
      walletBalance (TransactionService.topUp stTest ("u-alice") ("GOLD") 100000000 none).1 ("wB")
        = walletBalance stTest ("wB") + 100000000 ∧
      walletBalance (TransactionService.topUp stTest ("u-alice") ("GOLD") 100000000 none).1 ("wA")
          + walletBalance (TransactionService.topUp stTest ("u-alice") ("GOLD") 100000000 none).1 ("wB")
        = walletBalance stTest ("wA") + walletBalance stTest ("wB")) ∧
    (walletBalance (TransactionService.issueBonus stTest ("u-alice") ("GOLD") 100000000 ("promo") none).1 ("wA")
        = walletBalance stTest ("wA") - 100000000 ∧
      walletBalance (TransactionService.issueBonus stTest ("u-alice") ("GOLD") 100000000 ("promo") none).1 ("wB")
        = walletBalance stTest ("wB") + 100000000 ∧
      walletBalance (TransactionService.issueBonus stTest ("u-alice") ("GOLD") 100000000 ("promo") none).1 ("wA")
          + walletBalance (TransactionService.issueBonus stTest ("u-alice") ("GOLD") 100000000 ("promo") none).1 ("wB")
        = walletBalance stTest ("wA") + walletBalance stTest ("wB")) ∧
    (walletBalance (TransactionService.spend stTest ("u-alice") ("GOLD") 10000000 ("gear") none).1 ("wB")
        = walletBalance stTest ("wB") - 10000000 ∧
      walletBalance (TransactionService.spend stTest ("u-alice") ("GOLD") 10000000 ("gear") none).1 ("wA")
        = walletBalance stTest ("wA") + 10000000 ∧
      walletBalance (TransactionService.spend stTest ("u-alice") ("GOLD") 10000000 ("gear") none).1 ("wB")
          + walletBalance (TransactionService.spend stTest ("u-alice") ("GOLD") 10000000 ("gear") none).1 ("wA")
        = walletBalance stTest ("wB") + walletBalance stTest ("wA")) := by
  refine ⟨?_, ?_, ?_⟩
  · exact C1_transfer_balance_deltas.1 stTest ("u-alice") ("GOLD") 100000000 none
      ((TransactionService.topUp stTest ("u-alice") ("GOLD") 100000000 none).1)
      txnTopUpEx WF_stTest (by decide) (by decide)
  · exact C1_transfer_balance_deltas.2.1 stTest ("u-alice") ("GOLD") 100000000 ("promo") none
      ((TransactionService.issueBonus stTest ("u-alice") ("GOLD") 100000000 ("promo") none).1)
      txnBonusEx WF_stTest rfl (by decide) (by decide)
  · exact C1_transfer_balance_deltas.2.2 stTest ("u-alice") ("GOLD") 10000000 ("gear") none
      ((TransactionService.spend stTest ("u-alice") ("GOLD") 10000000 ("gear") none).1)
      txnSpendEx WF_stTest rfl (by decide) (by decide)

/-- C8: every ledger entry returned by a transfer operation that actually
performs a transfer (for `issueBonus`/`spend`: no idempotency-key hit) and
completes successfully has status COMPLETED; the entry is created PENDING and
finalized to COMPLETED within the same atomic unit that applies both balance
mutations, the post-state ledger is exactly the prior ledger plus that one
COMPLETED entry, and no entry left in PENDING status is new — so no persisted
entry becomes observable in PENDING status after the operation returns. -/
theorem C8_completed_ledger :
    (∀ st u atn a k st' txn, WF st →
      TransactionService.topUp st u atn a k = (st', .ok txn) →
      txn.status = TransactionStatus.COMPLETED ∧
      st'.transactions = st.transactions ++ [txn] ∧
      (∀ t ∈ st'.transactions, t.status = TransactionStatus.PENDING →
        t ∈ st.transactions)) ∧
    (∀ st u atn a d k st' txn, WF st → idempotencyLookup st k = none →
      TransactionService.issueBonus st u atn a d k = (st', .ok txn) →
      txn.status = TransactionStatus.COMPLETED ∧
      st'.transactions = st.transactions ++ [txn] ∧
      (∀ t ∈ st'.transactions, t.status = TransactionStatus.PENDING →
        t ∈ st.transactions)) ∧
    (∀ st u atn a d k st' txn, WF st → idempotencyLookup st k = none →
      TransactionService.spend st u atn a d k = (st', .ok txn) →
      txn.status = TransactionStatus.COMPLETED ∧
      st'.transactions = st.transactions ++ [txn] ∧
      (∀ t ∈ st'.transactions, t.status = TransactionStatus.PENDING →
        t ∈ st.transactions)) := by
  refine ⟨?_, ?_, ?_⟩
  · intro st u atn a k st' txn hWF h
    obtain ⟨h1, _, _, _, _, h6, _⟩ := topUp_ok_effects hWF h
    refine ⟨h1, h6, ?_⟩
    intro t ht hpend
    rw [h6] at ht
    rcases List.mem_append.1 ht with hmem | hmem
    · exact hmem
    · exfalso
      have ht2 : t = txn := by simpa using hmem
      rw [ht2, h1] at hpend
      simp at hpend
  · intro st u atn a d k st' txn hWF hidem h
    rcases issueBonus_ok_effects hWF h with ⟨h1, _, _, _, h6, _⟩ | ⟨hsome, _⟩
    · refine ⟨h1, h6, ?_⟩
      intro t ht hpend
      rw [h6] at ht
      rcases List.mem_append.1 ht with hmem | hmem
      · exact hmem
      · exfalso
        have ht2 : t = txn := by simpa using hmem
        rw [ht2, h1] at hpend
        simp at hpend
    · rw [hidem] at hsome
      exact absurd hsome (by simp)
  · intro st u atn a d k st' txn hWF hidem h
    rcases spend_ok_effects hWF h with ⟨h1, _, _, _, h6, _⟩ | ⟨hsome, _⟩
    · refine ⟨h1, h6, ?_⟩
      intro t ht hpend
      rw [h6] at ht
      rcases List.mem_append.1 ht with hmem | hmem
      · exact hmem
      · exfalso
        have ht2 : t = txn := by simpa using hmem
        rw [ht2, h1] at hpend
        simp at hpend
    · rw [hidem] at hsome
      exact absurd hsome (by simp)

/-- Witness for C8 on concrete runs of all three operations. -/
theorem C8_witness :
    (txnTopUpEx.status = TransactionStatus.COMPLETED ∧
      (TransactionService.topUp stTest ("u-alice") ("GOLD") 100000000 none).1.transactions
        = stTest.transactions ++ [txnTopUpEx] ∧
      (∀ t ∈ (TransactionService.topUp stTest ("u-alice") ("GOLD") 100000000 none).1.transactions,
        t.status = TransactionStatus.PENDING → t ∈ stTest.transactions)) ∧
    (txnBonusEx.status = TransactionStatus.COMPLETED ∧
      (TransactionService.issueBonus stTest ("u-alice") ("GOLD") 100000000 ("promo") none).1.transactions
        = stTest.transactions ++ [txnBonusEx] ∧
      (∀ t ∈ (TransactionService.issueBonus stTest ("u-alice") ("GOLD") 100000000 ("promo") none).1.transactions,
        t.status = TransactionStatus.PENDING → t ∈ stTest.transactions)) ∧
    (txnSpendEx.status = TransactionStatus.COMPLETED ∧
      (TransactionService.spend stTest ("u-alice") ("GOLD") 10000000 ("gear") none).1.transactions
        = stTest.transactions ++ [txnSpendEx] ∧
      (∀ t ∈ (TransactionService.spend stTest ("u-alice") ("GOLD") 10000000 ("gear") none).1.transactions,
        t.status = TransactionStatus.PENDING → t ∈ stTest.transactions)) := by
  refine ⟨?_, ?_, ?_⟩
  · exact C8_completed_ledger.1 stTest ("u-alice") ("GOLD") 100000000 none
      ((TransactionService.topUp stTest ("u-alice") ("GOLD") 100000000 none).1)
      txnTopUpEx WF_stTest (by decide)
  · exact C8_completed_ledger.2.1 stTest ("u-alice") ("GOLD") 100000000 ("promo") none
      ((TransactionService.issueBonus stTest ("u-alice") ("GOLD") 100000000 ("promo") none).1)
      txnBonusEx WF_stTest rfl (by decide)
  · exact C8_completed_ledger.2.2 stTest ("u-alice") ("GOLD") 10000000 ("gear") none
      ((TransactionService.spend stTest ("u-alice") ("GOLD") 10000000 ("gear") none).1)
      txnSpendEx WF_stTest rfl (by decide)

/-- C10: idempotency-key lookup is global across the three operations and across
transaction kinds: after a `topUp` with key `key` completes creating ledger
entry `e` (a DEPOSIT), any subsequent `spend` or `issueBonus` supplying the same
key — with ANY user, asset, amount, and description — returns that prior entry
`e` unchanged and leaves the database state unchanged, performing no transfer of
its own. -/
theorem C10_idempotency_lookup_global (st : DbState) (u atn : String) (a : ℤ)
    (key : String) (st1 : DbState) (e : Transaction) (hWF : WF st)
    (h : TransactionService.topUp st u atn a (some key) = (st1, .ok e)) :
    ∀ u2 atn2 a2 d2,
      TransactionService.spend st1 u2 atn2 a2 d2 (some key) = (st1, .ok e) ∧
      TransactionService.issueBonus st1 u2 atn2 a2 d2 (some key) = (st1, .ok e) := by
  intro u2 atn2 a2 d2
  obtain ⟨_, _, _, hkey, hidem, htr, _⟩ := topUp_ok_effects hWF h
  have hnone : TransactionDb.findByIdempotencyKey st key = none := hidem
  have hfind : TransactionDb.findByIdempotencyKey st1 key = some e := by
    unfold TransactionDb.findByIdempotencyKey
    rw [htr, List.find?_append]
    have h0 : st.transactions.find? (fun t => t.idempotencyKey == some key) = none := hnone
    rw [h0]
    simp only [Option.none_or]
    have hk : (e.idempotencyKey == some key) = true := by
      rw [hkey]
      simp
    simp [List.find?, hk]
  constructor
  · unfold TransactionService.spend
    rw [show idempotencyLookup st1 (some key) = some e from hfind]
  · unfold TransactionService.issueBonus
    rw [show idempotencyLookup st1 (some key) = some e from hfind]

/-- The state after `topUp stTest "u-alice" "GOLD" 100000000 (some "key-77")`. -/
def stIdem : DbState :=
  (TransactionService.topUp stTest ("u-alice") ("GOLD") 100000000 (some ("key-77"))).1

/-- The ledger entry created by that keyed topUp. -/
def txnIdem : Transaction :=
  { id := genId 0, senderWalletId := ("wA"), receiverWalletId := ("wB"),
    amount := 100000000, type := TransactionType.DEPOSIT,
    status := TransactionStatus.COMPLETED,
    description := some (("Top-up: 100000000 GOLD")), idempotencyKey := some ("key-77") }

/-- Witness for C10: after a keyed topUp, a spend and a bonus with the same key
(different user, asset, amount, description) return the DEPOSIT entry unchanged. -/
theorem C10_witness :
    TransactionService.spend stIdem ("u-bob") ("DIAMOND") 5 ("svc") (some ("key-77"))
        = (stIdem, .ok txnIdem) ∧
    TransactionService.issueBonus stIdem ("u-bob") ("DIAMOND") 5 ("svc") (some ("key-77"))
        = (stIdem, .ok txnIdem) :=
  C10_idempotency_lookup_global stTest ("u-alice") ("GOLD") 100000000 ("key-77")
    stIdem txnIdem WF_stTest (by decide) ("u-bob") ("DIAMOND") 5 ("svc")
